import Mathlib

/-!
# Ruler stroke geometry and scroll-adjustment recomputation

A shallow embedding of

* `src/control/tools/RulerHandler.cpp` (`RulerHandler::snapToGrid`,
  `RulerHandler::drawShape`), and
* `src/xournalpp/gui/widgets/XournalWidget.cpp`
  (`XournalWidget::sizeAllocateCallback`, `XournalWidget::updateScrollbar`,
  `XournalWidget::drawCallback`).

Conventions of the embedding.

* The first part reads a C++ `double` as an element of a linearly ordered field
  `α` with a floor function, with exact arithmetic (no rounding, no NaN, no
  infinities).  Its definitions are executable at `α = ℚ`.  Statements about it
  are kept to those that use the code's own expressions and comparisons.
* The second part (`Fp`) reads the same code with a rounding function applied
  after every operation; at `binary64` this is IEEE 754 double arithmetic.
* The `<cmath>` functions that arithmetic does not determine (`sqrt`, `atan2`,
  the constant `M_PI`) are a parameter, `Libm α`.  `fmod` is defined exactly,
  by truncated division, as IEEE 754 computes it.
* A `void` method that mutates an object is a function returning the new
  object.
-/

namespace Xournalpp

/-! ## Numeric substrate -/

/-- The `<cmath>` entry points used by `drawShape` whose values are not
determined by field arithmetic.  `atan2 y x` takes its arguments in the C
order. -/
structure Libm (α : Type) where
  sqrt : α → α
  atan2 : α → α → α
  pi : α

/-- Rounding toward zero of a field element, as an integer. -/
def truncToInt {α : Type} [LinearOrderedField α] [FloorRing α] (a : α) : ℤ :=
  if 0 ≤ a then ⌊a⌋ else ⌈a⌉

/-- C `fmod(x, y)`: `x - n * y` with `n` the quotient `x / y` rounded toward
zero, so that the result carries the sign of `x`. -/
def fmod {α : Type} [LinearOrderedField α] [FloorRing α] (x y : α) : α :=
  x - (truncToInt (x / y) : α) * y

/-! ## Data model -/

/-- A point `(x, y)` in document units. -/
structure Point (α : Type) where
  x : α
  y : α
  deriving DecidableEq, Repr

/-- Modelled from the spec: the `Stroke` class is not part of the sources at
hand.  The spec describes it as an ordered sequence of `Point(x, y)` of length
`≥ 0` of which the ruler engine reads and writes the first and last points. -/
structure Stroke (α : Type) where
  points : List (Point α)
  deriving DecidableEq, Repr

namespace Stroke

variable {α : Type}

/-- Modelled from the spec: `Stroke::getPointCount`, the length of the
sequence. -/
def getPointCount (s : Stroke α) : Nat := s.points.length

/-- Modelled from the spec: `Stroke::addPoint`, append at the end. -/
def addPoint (s : Stroke α) (p : Point α) : Stroke α := ⟨s.points ++ [p]⟩

/-- Modelled from the spec: `Stroke::getPoint(index)`; only called by
`drawShape` with index `0` on a stroke of at least two points. -/
def getPoint [Zero α] (s : Stroke α) (i : Nat) : Point α := s.points.getD i ⟨0, 0⟩

/-- Modelled from the spec: `Stroke::setFirstPoint(x, y)`, overwrite the first
point (nothing happens on an empty stroke). -/
def setFirstPoint (s : Stroke α) (x y : α) : Stroke α := ⟨s.points.set 0 ⟨x, y⟩⟩

/-- Modelled from the spec: `Stroke::setLastPoint(x, y)`, overwrite the last
point (nothing happens on an empty stroke). -/
def setLastPoint (s : Stroke α) (x y : α) : Stroke α :=
  ⟨s.points.set (s.points.length - 1) ⟨x, y⟩⟩

/-- The first point of the stroke, if any. -/
def first? (s : Stroke α) : Option (Point α) := s.points.head?

/-- The last point of the stroke, if any. -/
def last? (s : Stroke α) : Option (Point α) := s.points.getLast?

end Stroke

/-! ## `RulerHandler` -/

section Ruler

variable {α : Type} [LinearOrderedField α] [FloorRing α]

/-- Local constant `gridSize` of `RulerHandler::snapToGrid`. -/
def gridSize : α := 14.17

/-- Local constant `tolerance` of `RulerHandler::snapToGrid`. -/
def tolerance : α := 2.5

/-- The two consecutive `if`s of `snapToGrid` for one coordinate: the pair
`(tmp, snap)` after them, starting from `tmp = 0`, `snap = false`. -/
def snapAxis (v : α) : α × Bool :=
  let rem := fmod v gridSize
  let r1 : α × Bool := if rem < tolerance then (v - rem, true) else (0, false)
  if rem > gridSize - tolerance then (v + (gridSize - rem), true) else r1

/-- `RulerHandler::snapToGrid(double& x, double& y)`: the values of `x` and `y`
on return. -/
def snapToGrid (x y : α) : α × α :=
  let tx := snapAxis x
  let ty := snapAxis y
  if tx.2 && ty.2 then (tx.1, ty.1) else (x, y)

/-- `snapToGrid` applied to the coordinates of a point. -/
def snapPoint (p : Point α) : Point α :=
  let r := snapToGrid p.x p.y
  ⟨r.1, r.2⟩

/-- Local constant `epsilon` of `RulerHandler::drawShape`. -/
def epsilon : α := 0.1

/-- The distance `dist` computed in the snap branch of `drawShape`. -/
def snapDist (m : Libm α) (firstPoint : Point α) (x y : α) : α :=
  m.sqrt ((x - firstPoint.x) ^ 2 + (y - firstPoint.y) ^ 2)

/-- The direction `angle` computed in the snap branch of `drawShape`. -/
def snapAngle (m : Libm α) (firstPoint : Point α) (x y : α) : α :=
  m.atan2 (y - firstPoint.y) (x - firstPoint.x)

/-- The `if`/`else if` chain on `angle` in the snap branch of `drawShape`: the
arguments of the `setLastPoint` call it makes. -/
def angleSnapLast (m : Libm α) (firstPoint : Point α) (x y : α) : Point α :=
  let dist := snapDist m firstPoint x y
  let angle := snapAngle m firstPoint x y
  if |angle| < epsilon then
    ⟨dist + firstPoint.x, firstPoint.y⟩
  else if |angle - m.pi / 4| < epsilon then
    ⟨dist / m.sqrt 2 + firstPoint.x, dist / m.sqrt 2 + firstPoint.y⟩
  else if |angle - 3 * m.pi / 4| < epsilon then
    ⟨-dist / m.sqrt 2 + firstPoint.x, dist / m.sqrt 2 + firstPoint.y⟩
  else if |angle + m.pi / 4| < epsilon then
    ⟨dist / m.sqrt 2 + firstPoint.x, -dist / m.sqrt 2 + firstPoint.y⟩
  else if |angle + 3 * m.pi / 4| < epsilon then
    ⟨-dist / m.sqrt 2 + firstPoint.x, -dist / m.sqrt 2 + firstPoint.y⟩
  else if |(|angle|) - m.pi| < epsilon then
    ⟨-dist + firstPoint.x, firstPoint.y⟩
  else if |angle - m.pi / 2| < epsilon then
    ⟨firstPoint.x, dist + firstPoint.y⟩
  else if |angle + m.pi / 2| < epsilon then
    ⟨firstPoint.x, -dist + firstPoint.y⟩
  else
    ⟨x, y⟩

/-- `RulerHandler::drawShape(Point& currentPoint, bool shiftDown)`.  The member
`stroke` is passed in and returned; `rotationSnapping` is the value of
`xournal->getControl()->isRotationSnapping()`. -/
def drawShape (m : Libm α) (rotationSnapping : Bool) (stroke : Stroke α)
    (currentPoint : Point α) (shiftDown : Bool) : Stroke α :=
  let count := stroke.getPointCount
  if count < 2 then
    stroke.addPoint currentPoint
  else if shiftDown || !rotationSnapping then
    stroke.setLastPoint currentPoint.x currentPoint.y
  else
    let x := currentPoint.x
    let y := currentPoint.y
    let firstPoint := stroke.getPoint 0
    let firstPoint := snapPoint firstPoint
    let stroke := stroke.setFirstPoint firstPoint.x firstPoint.y
    let snapped := angleSnapLast m firstPoint x y
    let stroke := stroke.setLastPoint snapped.x snapped.y
    let xy := snapToGrid x y
    stroke.setLastPoint xy.1 xy.2

/-- One pointer sample handed to `drawShape`: the pointer, the `shiftDown` flag
and the rotation-snapping setting in force at that moment. -/
structure PointerSample (α : Type) where
  currentPoint : Point α
  shiftDown : Bool
  rotationSnapping : Bool

/-- A run of `drawShape` calls on one stroke, one per pointer sample, oldest
first. -/
def drawShapeRun (m : Libm α) (stroke : Stroke α) (samples : List (PointerSample α)) :
    Stroke α :=
  samples.foldl (fun s e => drawShape m e.rotationSnapping s e.currentPoint e.shiftDown) stroke

end Ruler

/-! ## `XournalWidget` -/

/-- Modelled from the spec: `GtkAdjustment` belongs to the toolkit.  The spec
describes it as a value with the six fields below, each with a plain setter. -/
structure Adjustment (α : Type) where
  lower : α
  upper : α
  value : α
  pageSize : α
  pageIncrement : α
  stepIncrement : α
  deriving DecidableEq, Repr

/-- Modelled from the spec: the `Viewport` value observed by the widget. -/
structure Viewport (α : Type) where
  x : α
  y : α
  width : Int
  height : Int
  rawScale : α

/-- Modelled from the spec: the `Layout` value observed by the widget. -/
structure Layout (α : Type) where
  documentWidth : α
  documentHeight : α
  infiniteHorizontally : Bool
  infiniteVertically : Bool

/-- The fields of the `GdkRectangle* allocation` that the callback reads. -/
structure GdkRectangle where
  width : Int
  height : Int
  deriving DecidableEq, Repr

/-- The `Resize` intent dispatched to the store. -/
structure Resize where
  width : Int
  height : Int
  deriving DecidableEq, Repr

/-- What `sizeAllocateCallback` leaves behind: the intent it dispatched, if
any, and the two adjustments of the scrollable. -/
structure AllocateResult (α : Type) where
  dispatched : Option Resize
  hadjustment : Adjustment α
  vadjustment : Adjustment α

/-- Modelled from the spec: the `Rectangle<double>` class is not part of the
sources at hand; the spec writes the clip as `Rect(x, y, width, height)`. -/
structure Rectangle (α : Type) where
  x : α
  y : α
  width : α
  height : α
  deriving DecidableEq, Repr

/-- What `drawCallback` computes before it hands over to the renderer: the
clipping rectangle in document coordinates and the `cairo_translate` calls it
made on the context, in order. -/
structure DrawResult (α : Type) where
  clippingRect : Rectangle α
  translations : List (α × α)

section Widget

variable {α : Type} [LinearOrderedField α]

/-- `XournalWidget::sizeAllocateCallback`.  `STEP_INCREMENT` is the constant of
that name, declared in a header that is not among the sources; the two
adjustments are those of the scrollable before the call. -/
def sizeAllocateCallback (STEP_INCREMENT : α) (allocation : GdkRectangle)
    (layout : Layout α) (viewport : Viewport α)
    (hadjustment vadjustment : Adjustment α) : AllocateResult α :=
  let dispatched : Option Resize :=
    if allocation.width ≠ viewport.width || allocation.height ≠ viewport.height then
      some ⟨allocation.width, allocation.height⟩
    else none
  let vadjustment : Adjustment α :=
    if layout.infiniteVertically then
      let v := { vadjustment with lower := -1.5 * (allocation.height : α) }
      { v with upper := 1.5 * (allocation.height : α) }
    else
      let v := { vadjustment with lower := 0 }
      { v with upper := layout.documentHeight * viewport.rawScale }
  let hadjustment : Adjustment α :=
    if layout.infiniteHorizontally then
      let h := { hadjustment with lower := -1.5 * (allocation.width : α) }
      { h with upper := 1.5 * (allocation.width : α) }
    else
      let h := { hadjustment with lower := 0 }
      { h with upper := layout.documentWidth * viewport.rawScale }
  let vadjustment := { vadjustment with pageSize := (allocation.height : α) }
  let hadjustment := { hadjustment with pageSize := (allocation.width : α) }
  let vadjustment :=
    { vadjustment with pageIncrement := (allocation.height : α) - STEP_INCREMENT }
  let hadjustment :=
    { hadjustment with pageIncrement := (allocation.width : α) - STEP_INCREMENT }
  ⟨dispatched, hadjustment, vadjustment⟩

/-- `XournalWidget::updateScrollbar(GtkAdjustment* adj, double value, bool
infinite)`: the adjustment after the call. -/
def updateScrollbar (adj : Adjustment α) (value : α) (infinite : Bool) : Adjustment α :=
  if infinite then
    let upper := adj.upper
    let lower := adj.lower
    let fullRange := upper - lower
    let lowerThreshhold := lower + 0.1 * fullRange
    let upperThreshhold := upper - 0.1 * fullRange
    if value < lowerThreshhold then
      let adj := { adj with lower := lower - 0.2 * fullRange }
      { adj with upper := upper - 0.2 * fullRange }
    else if value > upperThreshhold then
      let adj := { adj with lower := lower + 0.2 * fullRange }
      { adj with upper := upper + 0.2 * fullRange }
    else adj
  else adj

/-- `XournalWidget::drawCallback`, up to the call of the renderer.  `x1`, `y1`,
`x2`, `y2` are the clip extents reported by `cairo_clip_extents`, `allocWidth`
and `allocHeight` the allocated size of the drawing area. -/
def drawCallback (x1 y1 x2 y2 : α) (allocWidth allocHeight : Int)
    (layout : Layout α) (viewport : Viewport α) : DrawResult α :=
  let clippingRect : Rectangle α := ⟨viewport.x + x1, viewport.y + y1, x2 - x1, y2 - y1⟩
  let hInfinite := layout.infiniteHorizontally
  let vInfinite := layout.infiniteVertically
  let st : DrawResult α := ⟨clippingRect, []⟩
  let st : DrawResult α :=
    if hInfinite = false ∧ layout.documentWidth * viewport.rawScale < (allocWidth : α) then
      let borderWidth := ((allocWidth : α) - layout.documentWidth) / 2
      ⟨{ st.clippingRect with
          width := min st.clippingRect.width (layout.documentWidth * viewport.rawScale) },
        st.translations ++ [(borderWidth, 0)]⟩
    else st
  let st : DrawResult α :=
    if vInfinite = false ∧ layout.documentHeight * viewport.rawScale < (allocHeight : α) then
      let borderHeight := ((allocHeight : α) - layout.documentHeight) / 2
      ⟨{ st.clippingRect with
          height := min st.clippingRect.height (layout.documentHeight * viewport.rawScale) },
        st.translations ++ [(0, borderHeight)]⟩
    else st
  st

end Widget

/-! ## An instance of `Libm` -/

/-- Some rational-valued `Libm`, for running `drawShape` on concrete rational
inputs.  It is only used where the outcome does not depend on the values of
`sqrt`, `atan2` and `M_PI`. -/
def sampleLibm : Libm ℚ where
  sqrt := fun a => a
  atan2 := fun _ _ => 0
  pi := 355 / 113

/-! ## Rounded arithmetic

The definitions above read a `double` as an exact number.  The definitions of
this part read the same code with a rounding `rd : ℚ → ℚ` applied to the result
of every arithmetic operation, to every literal and to every conversion from
`int`: a `double` is the rational number it represents.  With `rd = id` this
is exact arithmetic again; with `rd = binary64` it is IEEE 754 double
arithmetic in round-to-nearest, each operation rounded on its own (no fused
multiply-add, no extended precision).  Overflow, NaN and the sign of zero are
left out.  `fmod`, comparisons, negation, `abs` and `min` are exact in IEEE 754
and are not rounded. -/

/-- The power `2 ^ k` of two, as a rational, for an integer exponent. -/
def pow2 (k : ℤ) : ℚ :=
  if 0 ≤ k then ((2 ^ k.toNat : ℕ) : ℚ) else 1 / ((2 ^ (-k).toNat : ℕ) : ℚ)

/-- Halving `n` until it drops below `2`, at most `fuel` times: the number of
halvings. -/
def log2Fuel : Nat → Nat → Nat
  | 0, _ => 0
  | fuel + 1, n => if n < 2 then 0 else log2Fuel fuel (n / 2) + 1

/-- The binary logarithm of a natural number, rounded down (`0` at `0`). -/
def natLog2 (n : Nat) : Nat := log2Fuel n n

/-- The exponent `e` with `2 ^ e ≤ |q| < 2 ^ (e + 1)`, for `q ≠ 0`. -/
def ilog2 (q : ℚ) : ℤ :=
  let e : ℤ := (natLog2 q.num.natAbs : ℤ) - (natLog2 q.den : ℤ)
  if pow2 e ≤ |q| then e else e - 1

/-- Rounding to the nearest integer, ties to the even one. -/
def roundHalfEven (q : ℚ) : ℤ :=
  let f := ⌊q⌋
  let r := q - (f : ℚ)
  if r < 1 / 2 then f else if 1 / 2 < r then f + 1 else if f % 2 = 0 then f else f + 1

/-- IEEE 754 round-to-nearest, ties-to-even, into binary64: 53 significant
bits, least exponent `-1022` (below it the spacing stays `2 ^ (-1074)`). -/
def binary64 (q : ℚ) : ℚ :=
  if q = 0 then 0
  else
    let e := max (ilog2 q) (-1022)
    let ulp := pow2 (e - 52)
    (roundHalfEven (q / ulp) : ℚ) * ulp

/-- Newton's iteration for the integer square root of `n` from a guess `g` that
is not below it, at most `fuel` steps. -/
def isqrtFuel : Nat → Nat → Nat → Nat
  | 0, _, g => g
  | fuel + 1, n, g =>
    let g' := (g + n / g) / 2
    if g' < g then isqrtFuel fuel n g' else g

/-- The integer square root, rounded down. -/
def natSqrt (n : Nat) : Nat :=
  if n < 2 then n else isqrtFuel n n (2 ^ (natLog2 n / 2 + 1))

/-- IEEE 754 `sqrt` on binary64: the rounding of the exact square root to the
nearest double (`0` for arguments that are not positive). -/
def sqrt64 (q : ℚ) : ℚ :=
  if q ≤ 0 then 0
  else
    let ulp := pow2 (ilog2 q / 2 - 52)
    let t := q / (ulp * ulp)
    let f : ℤ := (natSqrt ⌊t⌋.toNat : ℤ)
    let c : ℚ := ((f : ℚ) + 1 / 2) * ((f : ℚ) + 1 / 2)
    let n : ℤ := if t < c then f else if c < t then f + 1 else if f % 2 = 0 then f else f + 1
    (n : ℚ) * ulp

/-- The macro `M_PI` of `<cmath>`, `3.14159265358979323846`, as a double. -/
def M_PI : ℚ := binary64 3.14159265358979323846

/-- The `<cmath>` functions on doubles, as seen by one call of `drawShape`:
`sqrt` is correctly rounded, as IEEE 754 requires; the rounding of `atan2` is
not fixed by the standard, and since `drawShape` calls it once, its result is
the parameter `angle`. -/
def libm64 (angle : ℚ) : Libm ℚ where
  sqrt := sqrt64
  atan2 := fun _ _ => angle
  pi := M_PI

namespace Fp

/-- Local constant `gridSize` of `RulerHandler::snapToGrid`, as the compiler
rounds the literal. -/
def gridSize (rd : ℚ → ℚ) : ℚ := rd 14.17

/-- Local constant `tolerance` of `RulerHandler::snapToGrid`. -/
def tolerance (rd : ℚ → ℚ) : ℚ := rd 2.5

/-- The two consecutive `if`s of `snapToGrid` for one coordinate, in rounded
arithmetic: the pair `(tmp, snap)` after them. -/
def snapAxis (rd : ℚ → ℚ) (v : ℚ) : ℚ × Bool :=
  let rem := fmod v (gridSize rd)
  let r1 : ℚ × Bool := if rem < tolerance rd then (rd (v - rem), true) else (0, false)
  if rem > rd (gridSize rd - tolerance rd) then (rd (v + rd (gridSize rd - rem)), true)
  else r1

/-- `RulerHandler::snapToGrid(double& x, double& y)` in rounded arithmetic. -/
def snapToGrid (rd : ℚ → ℚ) (x y : ℚ) : ℚ × ℚ :=
  let tx := snapAxis rd x
  let ty := snapAxis rd y
  if tx.2 && ty.2 then (tx.1, ty.1) else (x, y)

/-- `snapToGrid` applied to the coordinates of a point. -/
def snapPoint (rd : ℚ → ℚ) (p : Point ℚ) : Point ℚ :=
  let r := snapToGrid rd p.x p.y
  ⟨r.1, r.2⟩

/-- Local constant `epsilon` of `RulerHandler::drawShape`. -/
def epsilon (rd : ℚ → ℚ) : ℚ := rd 0.1

/-- The distance `dist` computed in the snap branch of `drawShape`;
`pow(a, 2.0)` is read as the rounded square. -/
def snapDist (rd : ℚ → ℚ) (m : Libm ℚ) (firstPoint : Point ℚ) (x y : ℚ) : ℚ :=
  m.sqrt (rd (rd (rd (x - firstPoint.x) ^ 2) + rd (rd (y - firstPoint.y) ^ 2)))

/-- The direction `angle` computed in the snap branch of `drawShape`. -/
def snapAngle (rd : ℚ → ℚ) (m : Libm ℚ) (firstPoint : Point ℚ) (x y : ℚ) : ℚ :=
  m.atan2 (rd (y - firstPoint.y)) (rd (x - firstPoint.x))

/-- The `if`/`else if` chain on `angle` in the snap branch of `drawShape`, in
rounded arithmetic: the arguments of the `setLastPoint` call it makes. -/
def angleSnapLast (rd : ℚ → ℚ) (m : Libm ℚ) (firstPoint : Point ℚ) (x y : ℚ) : Point ℚ :=
  let dist := snapDist rd m firstPoint x y
  let angle := snapAngle rd m firstPoint x y
  if |angle| < epsilon rd then
    ⟨rd (dist + firstPoint.x), firstPoint.y⟩
  else if |rd (angle - rd (m.pi / rd 4))| < epsilon rd then
    ⟨rd (rd (dist / m.sqrt (rd 2)) + firstPoint.x),
      rd (rd (dist / m.sqrt (rd 2)) + firstPoint.y)⟩
  else if |rd (angle - rd (rd (rd 3 * m.pi) / rd 4))| < epsilon rd then
    ⟨rd (rd (-dist / m.sqrt (rd 2)) + firstPoint.x),
      rd (rd (dist / m.sqrt (rd 2)) + firstPoint.y)⟩
  else if |rd (angle + rd (m.pi / rd 4))| < epsilon rd then
    ⟨rd (rd (dist / m.sqrt (rd 2)) + firstPoint.x),
      rd (rd (-dist / m.sqrt (rd 2)) + firstPoint.y)⟩
  else if |rd (angle + rd (rd (rd 3 * m.pi) / rd 4))| < epsilon rd then
    ⟨rd (rd (-dist / m.sqrt (rd 2)) + firstPoint.x),
      rd (rd (-dist / m.sqrt (rd 2)) + firstPoint.y)⟩
  else if |rd (|angle| - m.pi)| < epsilon rd then
    ⟨rd (-dist + firstPoint.x), firstPoint.y⟩
  else if |rd (angle - rd (m.pi / rd 2))| < epsilon rd then
    ⟨firstPoint.x, rd (dist + firstPoint.y)⟩
  else if |rd (angle + rd (m.pi / rd 2))| < epsilon rd then
    ⟨firstPoint.x, rd (-dist + firstPoint.y)⟩
  else
    ⟨x, y⟩

/-- `RulerHandler::drawShape(Point& currentPoint, bool shiftDown)` in rounded
arithmetic. -/
def drawShape (rd : ℚ → ℚ) (m : Libm ℚ) (rotationSnapping : Bool) (stroke : Stroke ℚ)
    (currentPoint : Point ℚ) (shiftDown : Bool) : Stroke ℚ :=
  let count := stroke.getPointCount
  if count < 2 then
    stroke.addPoint currentPoint
  else if shiftDown || !rotationSnapping then
    stroke.setLastPoint currentPoint.x currentPoint.y
  else
    let x := currentPoint.x
    let y := currentPoint.y
    let firstPoint := stroke.getPoint 0
    let firstPoint := snapPoint rd firstPoint
    let stroke := stroke.setFirstPoint firstPoint.x firstPoint.y
    let snapped := angleSnapLast rd m firstPoint x y
    let stroke := stroke.setLastPoint snapped.x snapped.y
    let xy := snapToGrid rd x y
    stroke.setLastPoint xy.1 xy.2

/-- `XournalWidget::sizeAllocateCallback` in rounded arithmetic. -/
def sizeAllocateCallback (rd : ℚ → ℚ) (STEP_INCREMENT : ℚ) (allocation : GdkRectangle)
    (layout : Layout ℚ) (viewport : Viewport ℚ)
    (hadjustment vadjustment : Adjustment ℚ) : AllocateResult ℚ :=
  let dispatched : Option Resize :=
    if allocation.width ≠ viewport.width || allocation.height ≠ viewport.height then
      some ⟨allocation.width, allocation.height⟩
    else none
  let vadjustment : Adjustment ℚ :=
    if layout.infiniteVertically then
      let v := { vadjustment with lower := rd (rd (-1.5) * rd (allocation.height : ℚ)) }
      { v with upper := rd (rd 1.5 * rd (allocation.height : ℚ)) }
    else
      let v := { vadjustment with lower := 0 }
      { v with upper := rd (layout.documentHeight * viewport.rawScale) }
  let hadjustment : Adjustment ℚ :=
    if layout.infiniteHorizontally then
      let h := { hadjustment with lower := rd (rd (-1.5) * rd (allocation.width : ℚ)) }
      { h with upper := rd (rd 1.5 * rd (allocation.width : ℚ)) }
    else
      let h := { hadjustment with lower := 0 }
      { h with upper := rd (layout.documentWidth * viewport.rawScale) }
  let vadjustment := { vadjustment with pageSize := rd (allocation.height : ℚ) }
  let hadjustment := { hadjustment with pageSize := rd (allocation.width : ℚ) }
  let vadjustment :=
    { vadjustment with pageIncrement := rd (rd (allocation.height : ℚ) - STEP_INCREMENT) }
  let hadjustment :=
    { hadjustment with pageIncrement := rd (rd (allocation.width : ℚ) - STEP_INCREMENT) }
  ⟨dispatched, hadjustment, vadjustment⟩

/-- `XournalWidget::updateScrollbar` in rounded arithmetic. -/
def updateScrollbar (rd : ℚ → ℚ) (adj : Adjustment ℚ) (value : ℚ) (infinite : Bool) :
    Adjustment ℚ :=
  if infinite then
    let upper := adj.upper
    let lower := adj.lower
    let fullRange := rd (upper - lower)
    let lowerThreshhold := rd (lower + rd (rd 0.1 * fullRange))
    let upperThreshhold := rd (upper - rd (rd 0.1 * fullRange))
    if value < lowerThreshhold then
      let adj := { adj with lower := rd (lower - rd (rd 0.2 * fullRange)) }
      { adj with upper := rd (upper - rd (rd 0.2 * fullRange)) }
    else if value > upperThreshhold then
      let adj := { adj with lower := rd (lower + rd (rd 0.2 * fullRange)) }
      { adj with upper := rd (upper + rd (rd 0.2 * fullRange)) }
    else adj
  else adj

/-- A run of `updateScrollbar` calls on one infinite axis, oldest first, in
rounded arithmetic. -/
def updateScrollbarRun (rd : ℚ → ℚ) (adj : Adjustment ℚ) (values : List ℚ) : Adjustment ℚ :=
  values.foldl (fun a v => updateScrollbar rd a v true) adj

/-- `XournalWidget::drawCallback`, up to the call of the renderer, in rounded
arithmetic. -/
def drawCallback (rd : ℚ → ℚ) (x1 y1 x2 y2 : ℚ) (allocWidth allocHeight : Int)
    (layout : Layout ℚ) (viewport : Viewport ℚ) : DrawResult ℚ :=
  let clippingRect : Rectangle ℚ :=
    ⟨rd (viewport.x + x1), rd (viewport.y + y1), rd (x2 - x1), rd (y2 - y1)⟩
  let hInfinite := layout.infiniteHorizontally
  let vInfinite := layout.infiniteVertically
  let st : DrawResult ℚ := ⟨clippingRect, []⟩
  let st : DrawResult ℚ :=
    if hInfinite = false ∧
        rd (layout.documentWidth * viewport.rawScale) < rd (allocWidth : ℚ) then
      let borderWidth := rd (rd (rd (allocWidth : ℚ) - layout.documentWidth) / rd 2)
      ⟨{ st.clippingRect with
          width := min st.clippingRect.width (rd (layout.documentWidth * viewport.rawScale)) },
        st.translations ++ [(borderWidth, 0)]⟩
    else st
  let st : DrawResult ℚ :=
    if vInfinite = false ∧
        rd (layout.documentHeight * viewport.rawScale) < rd (allocHeight : ℚ) then
      let borderHeight := rd (rd (rd (allocHeight : ℚ) - layout.documentHeight) / rd 2)
      ⟨{ st.clippingRect with
          height :=
            min st.clippingRect.height (rd (layout.documentHeight * viewport.rawScale)) },
        st.translations ++ [(0, borderHeight)]⟩
    else st
  st

end Fp

/-! ## Lists: overwriting the first and the last element -/

section ListFacts

variable {β : Type}

theorem getLast?_set_last (xs : List β) (b : β) (h : 0 < xs.length) :
    (xs.set (xs.length - 1) b).getLast? = some b := by
  rw [List.getLast?_eq_getElem?, List.length_set, List.getElem?_set_self]
  simp; omega

theorem getElem?_set_last_of_lt (xs : List β) (b : β) (i : Nat) (h : i + 1 < xs.length) :
    (xs.set (xs.length - 1) b)[i]? = xs[i]? := by
  rw [List.getElem?_set_ne]; omega

end ListFacts

section Binary64Facts

/-! ### Facts about `binary64` -/

theorem log2Fuel_spec : ∀ fuel n : Nat, 0 < n → n ≤ fuel →
    2 ^ log2Fuel fuel n ≤ n ∧ n < 2 ^ (log2Fuel fuel n + 1) := by
  intro fuel
  induction fuel with
  | zero => intro n h0 h1; omega
  | succ f ih =>
    intro n h0 h1
    unfold log2Fuel
    split_ifs with h2
    · constructor <;> simp <;> omega
    · have h3 := ih (n / 2) (by omega) (by omega)
      rw [pow_succ, pow_succ 2 (log2Fuel f (n / 2) + 1)]
      constructor <;> omega

theorem natLog2_spec (n : Nat) (h : 0 < n) :
    2 ^ natLog2 n ≤ n ∧ n < 2 ^ (natLog2 n + 1) :=
  log2Fuel_spec n n h (le_refl n)

theorem pow2_eq_zpow (k : ℤ) : pow2 k = (2 : ℚ) ^ k := by
  unfold pow2
  split_ifs with h
  · obtain ⟨n, rfl⟩ := Int.eq_ofNat_of_zero_le h
    simp
  · have h' : 0 ≤ -k := by omega
    obtain ⟨n, hn⟩ := Int.eq_ofNat_of_zero_le h'
    have hk : k = -(n : ℤ) := by omega
    rw [hn, hk]
    simp

theorem pow2_pos (k : ℤ) : 0 < pow2 k := by
  rw [pow2_eq_zpow]; positivity

theorem pow2_add (a b : ℤ) : pow2 (a + b) = pow2 a * pow2 b := by
  rw [pow2_eq_zpow, pow2_eq_zpow, pow2_eq_zpow, zpow_add₀ (by norm_num)]

theorem pow2_lt_pow2 {a b : ℤ} (h : pow2 a < pow2 b) : a < b := by
  rw [pow2_eq_zpow, pow2_eq_zpow] at h
  exact (zpow_lt_zpow_iff_right₀ (by norm_num : (1 : ℚ) < 2)).mp h

theorem abs_eq_natAbs_div_den (q : ℚ) : |q| = (q.num.natAbs : ℚ) / (q.den : ℚ) := by
  conv_lhs => rw [← Rat.num_div_den q]
  rw [abs_div, Nat.abs_cast, Nat.cast_natAbs, Int.cast_abs]

/-- The exponent found by `ilog2` is not above the number. -/
theorem pow2_ilog2_le (q : ℚ) (hq : q ≠ 0) : pow2 (ilog2 q) ≤ |q| := by
  unfold ilog2
  simp only
  split_ifs with h
  · exact h
  · have hn : 0 < q.num.natAbs := Int.natAbs_pos.mpr (Rat.num_ne_zero.mpr hq)
    have hd : 0 < q.den := q.den_pos
    obtain ⟨n1, -⟩ := natLog2_spec _ hn
    obtain ⟨-, d2⟩ := natLog2_spec _ hd
    have n1' : ((2 : ℚ) ^ natLog2 q.num.natAbs) ≤ (q.num.natAbs : ℚ) := by exact_mod_cast n1
    have d2' : (q.den : ℚ) ≤ (2 : ℚ) ^ (natLog2 q.den + 1) := by exact_mod_cast le_of_lt d2
    have hd' : (0 : ℚ) < (q.den : ℚ) := by exact_mod_cast hd
    rw [abs_eq_natAbs_div_den, pow2_eq_zpow]
    have e : (2 : ℚ) ^ ((natLog2 q.num.natAbs : ℤ) - (natLog2 q.den : ℤ) - 1)
        = (2 : ℚ) ^ natLog2 q.num.natAbs / (2 : ℚ) ^ (natLog2 q.den + 1) := by
      rw [show ((natLog2 q.num.natAbs : ℤ) - (natLog2 q.den : ℤ) - 1)
          = (natLog2 q.num.natAbs : ℤ) - ((natLog2 q.den + 1 : ℕ) : ℤ) by push_cast; ring,
        zpow_sub₀ (by norm_num), zpow_natCast, zpow_natCast]
    rw [e]
    exact div_le_div₀ (by positivity) n1' hd' d2'

/-- Rounding to the nearest integer fixes integers. -/
theorem roundHalfEven_intCast (n : ℤ) : roundHalfEven (n : ℚ) = n := by
  unfold roundHalfEven
  simp

/-- A number `m * 2 ^ j` with `|m| < 2 ^ 53` and `j ≥ -1074` is a double: rounding
does not change it. -/
theorem binary64_of_int_mul_pow2 (m j : ℤ) (hm : |m| < 2 ^ 53) (hj : -1074 ≤ j) :
    binary64 ((m : ℚ) * pow2 j) = (m : ℚ) * pow2 j := by
  by_cases h0 : m = 0
  · subst h0; simp [binary64]
  have hq : (m : ℚ) * pow2 j ≠ 0 :=
    mul_ne_zero (by exact_mod_cast h0) (ne_of_gt (pow2_pos j))
  have hlow := pow2_ilog2_le _ hq
  have hup : |(m : ℚ) * pow2 j| < pow2 (53 + j) := by
    rw [abs_mul, abs_of_pos (pow2_pos j), pow2_add]
    have : |(m : ℚ)| < pow2 53 := by
      rw [pow2_eq_zpow]
      have h1 : ((|m| : ℤ) : ℚ) < ((2 ^ 53 : ℤ) : ℚ) := by exact_mod_cast hm
      rw [Int.cast_abs] at h1
      rw [show (53 : ℤ) = ((53 : ℕ) : ℤ) by norm_num, zpow_natCast]
      exact_mod_cast h1
    exact mul_lt_mul_of_pos_right this (pow2_pos j)
  have he : ilog2 ((m : ℚ) * pow2 j) < 53 + j := pow2_lt_pow2 (lt_of_le_of_lt hlow hup)
  have hk : 0 ≤ j - (max (ilog2 ((m : ℚ) * pow2 j)) (-1022) - 52) := by
    rcases max_cases (ilog2 ((m : ℚ) * pow2 j)) (-1022) with ⟨e1, _⟩ | ⟨e1, _⟩ <;> rw [e1] <;> omega
  unfold binary64
  rw [if_neg hq]
  simp only
  generalize max (ilog2 ((m : ℚ) * pow2 j)) (-1022) - 52 = u at hk
  obtain ⟨k, hk'⟩ := Int.eq_ofNat_of_zero_le hk
  have hj' : j = u + (k : ℤ) := by omega
  have hdiv : (m : ℚ) * pow2 j / pow2 u = ((m * 2 ^ k : ℤ) : ℚ) := by
    rw [hj', pow2_add, pow2_eq_zpow (k : ℤ), zpow_natCast]
    have := ne_of_gt (pow2_pos u)
    field_simp
    ring
  rw [hdiv, roundHalfEven_intCast, hj', pow2_add, pow2_eq_zpow (k : ℤ), zpow_natCast]
  push_cast
  ring

/-- A `double`-sized integer is a double. -/
theorem binary64_intCast (n : ℤ) (hn : |n| < 2 ^ 53) : binary64 (n : ℚ) = n := by
  have h := binary64_of_int_mul_pow2 n 0 hn (by norm_num)
  have e : pow2 0 = 1 := by rw [pow2_eq_zpow]; simp
  rwa [e, mul_one] at h

/-- Half of a `double`-sized integer is a double. -/
theorem binary64_intCast_div_two (n : ℤ) (hn : |n| < 2 ^ 53) :
    binary64 ((n : ℚ) / 2) = (n : ℚ) / 2 := by
  have h := binary64_of_int_mul_pow2 n (-1) hn (by norm_num)
  have e : pow2 (-1) = 1 / 2 := by rw [pow2_eq_zpow]; norm_num
  rw [e] at h
  rw [div_eq_mul_one_div]
  exact h

/-- Rounding to the nearest integer moves a number by at most one half. -/
theorem abs_roundHalfEven_sub_le (s : ℚ) : |(roundHalfEven s : ℚ) - s| ≤ 1 / 2 := by
  have h1 : (⌊s⌋ : ℚ) ≤ s := Int.floor_le s
  have h2 : s < (⌊s⌋ : ℚ) + 1 := Int.lt_floor_add_one s
  unfold roundHalfEven
  simp only
  rw [abs_le]
  split_ifs with c1 c2 c3
  · constructor <;> linarith
  · push_cast; constructor <;> linarith
  · constructor <;> linarith
  · push_cast; constructor <;> linarith

/-- Rounding into binary64 loses at most half of the number, apart from the
underflow below `2 ^ (-1074)`. -/
theorem abs_le_two_mul_abs_binary64 (q : ℚ) : |q| ≤ 2 * |binary64 q| + pow2 (-1074) := by
  by_cases hq : q = 0
  · subst hq
    have := pow2_pos (-1074)
    simp [binary64]; linarith
  have hlow := pow2_ilog2_le q hq
  unfold binary64
  rw [if_neg hq]
  simp only
  have hu : pow2 (max (ilog2 q) (-1022) - 52) ≤ |q| ∨
      pow2 (max (ilog2 q) (-1022) - 52) = pow2 (-1074) := by
    rcases max_cases (ilog2 q) (-1022) with ⟨e1, _⟩ | ⟨e1, _⟩
    · left
      rw [e1, sub_eq_add_neg, pow2_add]
      have h52 : pow2 (-52) ≤ 1 := by rw [pow2_eq_zpow]; norm_num
      have hp := pow2_pos (ilog2 q)
      calc pow2 (ilog2 q) * pow2 (-52) ≤ pow2 (ilog2 q) * 1 :=
            mul_le_mul_of_nonneg_left h52 (le_of_lt hp)
        _ = pow2 (ilog2 q) := mul_one _
        _ ≤ |q| := hlow
    · right
      rw [e1]; norm_num
  have hulp := pow2_pos (max (ilog2 q) (-1022) - 52)
  generalize pow2 (max (ilog2 q) (-1022) - 52) = ulp at hu hulp
  have herr := abs_roundHalfEven_sub_le (q / ulp)
  have hq' : q = q / ulp * ulp := by field_simp
  have hmain : |q| ≤ |(roundHalfEven (q / ulp) : ℚ) * ulp| + ulp / 2 := by
    have h1 : |q| = |q / ulp| * ulp := by
      conv_lhs => rw [hq']
      rw [abs_mul, abs_of_pos hulp]
    have h2 : |q / ulp| ≤ |(roundHalfEven (q / ulp) : ℚ)| + 1 / 2 := by
      have := abs_sub_abs_le_abs_sub (q / ulp) (roundHalfEven (q / ulp) : ℚ)
      rw [abs_sub_comm] at this
      linarith
    rw [h1, abs_mul, abs_of_pos hulp]
    nlinarith
  have hnn : 0 ≤ |(roundHalfEven (q / ulp) : ℚ) * ulp| := abs_nonneg _
  have hp := pow2_pos (-1074)
  rcases hu with h | h
  · linarith
  · rw [← h] at hp ⊢; linarith

/-- A number whose rounding is smaller than `epsilon` in absolute value is
smaller than `0.23` in absolute value. -/
theorem abs_lt_of_abs_binary64_lt_epsilon (z : ℚ) (h : |binary64 z| < Fp.epsilon binary64) :
    |z| < 0.23 := by
  have h1 := abs_le_two_mul_abs_binary64 z
  have h2 : Fp.epsilon binary64 < 0.11 := by decide!
  have h3 : pow2 (-1074) < 0.01 := by decide!
  linarith

end Binary64Facts

section RulerFacts

set_option linter.unusedSectionVars false

variable {α : Type} [LinearOrderedField α] [FloorRing α]

/-- C1. Free-draw override: with `shiftDown = true`, whatever the stroke, the
pointer and the rotation-snapping flag, the last point after `drawShape` is the
pointer itself; and on a stroke that already had at least two points the point
count and every point but the last (the first among them) are unchanged. -/
theorem drawShape_shiftDown_last (m : Libm α) (rotationSnapping : Bool)
    (s : Stroke α) (p : Point α) :
    (drawShape m rotationSnapping s p true).last? = some p ∧
    (2 ≤ s.getPointCount →
      (drawShape m rotationSnapping s p true).getPointCount = s.getPointCount ∧
      (drawShape m rotationSnapping s p true).first? = s.first? ∧
      ∀ i, i + 1 < s.getPointCount →
        (drawShape m rotationSnapping s p true).points[i]? = s.points[i]?) := by
  obtain ⟨xs⟩ := s
  by_cases hc : xs.length < 2
  · refine ⟨?_, fun h => ?_⟩
    · simp [drawShape, Stroke.getPointCount, Stroke.addPoint, Stroke.last?, hc]
    · simp only [Stroke.getPointCount] at h; omega
  · have hpos : 0 < xs.length := by omega
    refine ⟨?_, fun _ => ⟨?_, ?_, ?_⟩⟩
    · simp only [drawShape, Stroke.getPointCount, hc, Stroke.setLastPoint, Stroke.last?,
        if_false, Bool.true_or, if_true]
      exact getLast?_set_last xs _ hpos
    · simp [drawShape, Stroke.getPointCount, hc, Stroke.setLastPoint]
    · simp only [drawShape, Stroke.getPointCount, hc, Stroke.setLastPoint, Stroke.first?,
        if_false, Bool.true_or, if_true]
      rw [List.head?_eq_getElem?, List.head?_eq_getElem?]
      exact getElem?_set_last_of_lt xs _ 0 (by omega)
    · intro i hi
      simp only [drawShape, Stroke.getPointCount, hc, Stroke.setLastPoint,
        if_false, Bool.true_or, if_true]
      exact getElem?_set_last_of_lt xs _ i hi

/-- Witness for C1 (scenario S6): a two-point stroke starting at `(0, 0)`,
pointer `(100, 0)`, `shiftDown = true`. -/
theorem drawShape_shiftDown_last_witness :
    (drawShape sampleLibm true ⟨[⟨0, 0⟩, ⟨30, 40⟩]⟩ ⟨100, 0⟩ true).last?
        = some (⟨100, 0⟩ : Point ℚ) ∧
      (drawShape sampleLibm true ⟨[⟨0, 0⟩, ⟨30, 40⟩]⟩ ⟨100, 0⟩ true).getPointCount = 2 ∧
      (drawShape sampleLibm true ⟨[⟨0, 0⟩, ⟨30, 40⟩]⟩ ⟨100, 0⟩ true).first?
        = some (⟨0, 0⟩ : Point ℚ) :=
  have h := drawShape_shiftDown_last sampleLibm true ⟨[⟨0, 0⟩, ⟨30, 40⟩]⟩ ⟨100, 0⟩
  ⟨h.1, (h.2 (by decide)).1, (h.2 (by decide)).2.1⟩

/-- The snap branch of `drawShape`, as a list: the first point is overwritten
with its grid snap, the last with the grid snap of the pointer. -/
theorem drawShape_snap_points (m : Libm α) (s : Stroke α) (p : Point α)
    (h : 2 ≤ s.getPointCount) :
    (drawShape m true s p false).points =
      (s.points.set 0 (snapPoint (s.getPoint 0))).set (s.points.length - 1) (snapPoint p) := by
  have hc : ¬ s.getPointCount < 2 := by omega
  simp [drawShape, hc, Stroke.setLastPoint, Stroke.setFirstPoint, snapPoint]

/-- C2. Snap mode of `drawShape` (`shiftDown = false`, rotation snapping on) on
a stroke of at least two points: the first point becomes the grid snap of the
old first point, the last point becomes the grid snap of the raw pointer
whatever the angle-snapped write was, and the point count and all intermediate
points are unchanged. -/
theorem drawShape_snap_mode (m : Libm α) (s : Stroke α) (p : Point α)
    (h : 2 ≤ s.getPointCount) :
    (drawShape m true s p false).first? = s.first?.map snapPoint ∧
    (drawShape m true s p false).last? = some (snapPoint p) ∧
    (drawShape m true s p false).getPointCount = s.getPointCount ∧
    ∀ i, 0 < i → i + 1 < s.getPointCount →
      (drawShape m true s p false).points[i]? = s.points[i]? := by
  have hp := drawShape_snap_points m s p h
  obtain ⟨xs⟩ := s
  simp only [Stroke.getPointCount] at h
  simp only [Stroke.getPointCount, Stroke.first?, Stroke.last?, hp, Stroke.getPoint,
    List.length_set]
  refine ⟨?_, ?_, trivial, ?_⟩
  · rw [List.head?_eq_getElem?, List.head?_eq_getElem?, List.getElem?_set_ne (by omega),
      List.getElem?_set_self (by omega)]
    match xs, h with
    | a :: b :: t, _ => simp
  · have := getLast?_set_last (xs.set 0 (snapPoint (xs.getD 0 ⟨0, 0⟩))) (snapPoint p)
      (by rw [List.length_set]; omega)
    rw [List.length_set] at this
    exact this
  · intro i hi hi2
    rw [List.getElem?_set_ne (by omega), List.getElem?_set_ne (by omega)]

/-- Witness for C2 (scenario S5): first point `(0, 0)`, pointer `(100, 100.5)`;
the last point ends at the grid snap of the pointer, `(99.19, 99.19)`, and the
first point stays `(0, 0)`. -/
theorem drawShape_snap_mode_witness :
    (drawShape sampleLibm true ⟨[⟨0, 0⟩, ⟨30, 40⟩]⟩ ⟨100, 100.5⟩ false).last?
        = some (snapPoint (⟨100, 100.5⟩ : Point ℚ)) ∧
      snapPoint (⟨100, 100.5⟩ : Point ℚ) = ⟨99.19, 99.19⟩ ∧
      (drawShape sampleLibm true ⟨[⟨0, 0⟩, ⟨30, 40⟩]⟩ ⟨100, 100.5⟩ false).first?
        = (some (⟨0, 0⟩ : Point ℚ)).map snapPoint ∧
      snapPoint (⟨0, 0⟩ : Point ℚ) = ⟨0, 0⟩ :=
  have h := drawShape_snap_mode sampleLibm ⟨[⟨0, 0⟩, ⟨30, 40⟩]⟩ ⟨100, 100.5⟩ (by decide)
  ⟨h.2.1, by decide!, h.1, by decide!⟩

/-! ### Grid snap -/

/-- C4. Grid snap locality fails left of the origin: `snapToGrid(-10, 0)`
returns `(0, 0)`.  `fmod(-10, 14.17) = -10` is below `tolerance`, so the x axis
reports a snap and the point is moved by `10`, four times the tolerance. -/
theorem snapToGrid_negative_not_local :
    snapToGrid (-10 : ℚ) 0 = (0, 0) ∧
      snapToGrid (-10 : ℚ) 0 ≠ (-10, 0) ∧
      ¬ |(snapToGrid (-10 : ℚ) 0).1 - (-10)| < tolerance := by
  have e : snapToGrid (-10 : ℚ) 0 = (0, 0) := by decide!
  refine ⟨e, ?_, ?_⟩
  · rw [e]; decide
  · rw [e]; unfold tolerance; norm_num

/-! ### Runs of `drawShape` -/

/-- C16. In-progress append: on a stroke of fewer than two points `drawShape`
appends the pointer as it is, whatever `shiftDown` and the rotation-snapping
flag: the point count grows by exactly one, the new last point is the pointer
and all earlier points are unchanged. -/
theorem drawShape_append (m : Libm α) (rotationSnapping shiftDown : Bool)
    (s : Stroke α) (p : Point α) (h : s.getPointCount < 2) :
    (drawShape m rotationSnapping s p shiftDown).points = s.points ++ [p] ∧
    (drawShape m rotationSnapping s p shiftDown).getPointCount = s.getPointCount + 1 ∧
    (drawShape m rotationSnapping s p shiftDown).last? = some p ∧
    ∀ i, i < s.getPointCount →
      (drawShape m rotationSnapping s p shiftDown).points[i]? = s.points[i]? := by
  have e : drawShape m rotationSnapping s p shiftDown = s.addPoint p := by
    simp only [drawShape, h, if_true]
  rw [e]
  refine ⟨rfl, ?_, ?_, ?_⟩
  · simp [Stroke.addPoint, Stroke.getPointCount]
  · simp [Stroke.addPoint, Stroke.last?]
  · intro i hi
    simp only [Stroke.getPointCount] at hi
    simp only [Stroke.addPoint]
    rw [List.getElem?_append_left hi]

/-- Witness for C16: a one-point stroke, pointer `(100, 100.5)`, snap mode. -/
theorem drawShape_append_witness :
    (drawShape sampleLibm true ⟨[⟨3, 4⟩]⟩ ⟨100, 100.5⟩ false).points
        = [(⟨3, 4⟩ : Point ℚ)] ++ [⟨100, 100.5⟩] ∧
      (drawShape sampleLibm true ⟨[⟨3, 4⟩]⟩ ⟨100, 100.5⟩ false).getPointCount = 1 + 1 :=
  have h := drawShape_append sampleLibm true false ⟨[(⟨3, 4⟩ : Point ℚ)]⟩ ⟨100, 100.5⟩
    (by decide)
  ⟨h.1, h.2.1⟩

/-- One call of `drawShape` adds a point below two points and keeps the count
from two points on. -/
theorem getPointCount_drawShape (m : Libm α) (rotationSnapping shiftDown : Bool)
    (s : Stroke α) (p : Point α) :
    (drawShape m rotationSnapping s p shiftDown).getPointCount
      = if s.getPointCount < 2 then s.getPointCount + 1 else s.getPointCount := by
  by_cases h : s.getPointCount < 2
  · simp only [drawShape, h, if_true]
    simp [Stroke.addPoint, Stroke.getPointCount]
  · simp only [drawShape, h, if_false]
    split_ifs <;> simp [Stroke.setLastPoint, Stroke.setFirstPoint, Stroke.getPointCount]

/-- The point count after a run of `drawShape` calls on a stroke of at most two
points. -/
theorem getPointCount_drawShapeRun (m : Libm α) (samples : List (PointerSample α)) :
    ∀ s : Stroke α, s.getPointCount ≤ 2 →
      (drawShapeRun m s samples).getPointCount = min (s.getPointCount + samples.length) 2 := by
  induction samples with
  | nil => intro s hs; simp [drawShapeRun, hs]
  | cons e es ih =>
    intro s hs
    have hstep := getPointCount_drawShape m e.rotationSnapping e.shiftDown s e.currentPoint
    have hle : (drawShape m e.rotationSnapping s e.currentPoint e.shiftDown).getPointCount ≤ 2 := by
      rw [hstep]; split_ifs <;> omega
    have := ih _ hle
    simp only [drawShapeRun, List.foldl_cons, List.length_cons] at this ⊢
    rw [this, hstep]
    split_ifs <;> omega

/-- C17. Two-point invariant of a ruler stroke: starting from the empty stroke,
after `k` calls of `drawShape` with arbitrary pointers and flags the stroke has
exactly `min k 2` points, hence never more than two. -/
theorem drawShapeRun_empty_count (m : Libm α) (samples : List (PointerSample α)) :
    (drawShapeRun m ⟨[]⟩ samples).getPointCount = min samples.length 2 ∧
    (drawShapeRun m ⟨[]⟩ samples).getPointCount ≤ 2 := by
  have h := getPointCount_drawShapeRun m samples ⟨[]⟩ (by simp [Stroke.getPointCount])
  simp only [Stroke.getPointCount, List.length_nil, Nat.zero_add] at h
  simp only [Stroke.getPointCount]
  rw [h]
  exact ⟨rfl, Nat.min_le_right _ _⟩

/-! ### Grid snap in double arithmetic -/

/-- With `rd = id` the rounded grid snap is the exact one. -/
theorem Fp_snapToGrid_id (x y : ℚ) : Fp.snapToGrid id x y = snapToGrid x y := rfl

/-- With `rd = id` the rounded `drawShape` is the exact one. -/
theorem Fp_drawShape_id (m : Libm ℚ) (rotationSnapping shiftDown : Bool) (s : Stroke ℚ)
    (p : Point ℚ) :
    Fp.drawShape id m rotationSnapping s p shiftDown
      = drawShape m rotationSnapping s p shiftDown := by
  simp [Fp.drawShape, drawShape, Fp.snapPoint, snapPoint, Fp.snapToGrid, snapToGrid,
    Fp.snapAxis, snapAxis, Fp.gridSize, gridSize, Fp.tolerance, tolerance,
    Fp.angleSnapLast, angleSnapLast, Fp.snapDist, snapDist, Fp.snapAngle, snapAngle,
    Fp.epsilon, epsilon]

/-- C3. Grid snap is not idempotent in double arithmetic left of the origin:
`snapToGrid(-42.75, 0)` returns `(-42.51, 0)`, and `snapToGrid` of that point
returns `(-28.34, 0)`.  The first result is the double next to `-3 * gridSize`
on the side of zero, so its `fmod` is about `-14.17`, which is below
`tolerance`, and the point is pulled a whole cell further toward zero. -/
theorem snapToGrid_twice_negative :
    Fp.snapToGrid binary64 (-42.75) 0 = (binary64 (-42.51), 0) ∧
      Fp.snapToGrid binary64 (binary64 (-42.51)) 0 = (binary64 (-28.34), 0) ∧
      binary64 (-28.34) ≠ binary64 (-42.51) ∧
      fmod (binary64 (-42.51)) (Fp.gridSize binary64) < -14 := by
  decide!

/-- C19. A repeated pointer sample is not stable in double arithmetic when the
first point lies left of the origin: on the stroke `[(-42.75, 0), (30, 40)]`
with pointer `(100, 100.5)` in snap mode, the first call of `drawShape` leaves
the first point at `(-42.51, 0)`, the second call with the same pointer moves
it to `(-28.34, 0)`. -/
theorem drawShape_twice_negative_first :
    (Fp.drawShape binary64 sampleLibm true ⟨[⟨-42.75, 0⟩, ⟨30, 40⟩]⟩ ⟨100, 100.5⟩ false)
        = ⟨[⟨binary64 (-42.51), 0⟩, ⟨binary64 99.19, binary64 99.19⟩]⟩ ∧
      (Fp.drawShape binary64 sampleLibm true
          (Fp.drawShape binary64 sampleLibm true ⟨[⟨-42.75, 0⟩, ⟨30, 40⟩]⟩ ⟨100, 100.5⟩ false)
          ⟨100, 100.5⟩ false)
        = ⟨[⟨binary64 (-28.34), 0⟩, ⟨binary64 99.19, binary64 99.19⟩]⟩ ∧
      binary64 (-28.34) ≠ binary64 (-42.51) := by
  decide!

/-- C18, as stated, fails in double arithmetic: `351.75` is exactly `2.5` away
from `25 * 14.17 = 354.25`, hence not strictly within `tolerance` of any
multiple of `gridSize`, and yet `snapToGrid(351.75, 0)` returns `(354.25, 0)`.
The constant `14.17` is stored as the double just below it, so the remainder
`351.75 - 24 * gridSize` is just above `gridSize - tolerance`. -/
theorem snapToGrid_at_tolerance_edge :
    (0 : ℚ) ≤ 351.75 ∧
      (∀ k : ℤ, ¬ |(351.75 : ℚ) - (k : ℚ) * 14.17| < 2.5) ∧
      Fp.snapToGrid binary64 351.75 0 = (354.25, 0) ∧
      Fp.snapToGrid binary64 351.75 0 ≠ (351.75, 0) := by
  refine ⟨by norm_num, ?_, by decide!, by decide!⟩
  intro k hk
  rw [abs_lt] at hk
  rcases le_or_lt k 24 with h | h
  · have hc : (k : ℚ) ≤ 24 := by exact_mod_cast h
    linarith [hk.2]
  · have hc : (25 : ℚ) ≤ (k : ℚ) := by exact_mod_cast h
    linarith [hk.1]

/-- For a non-negative dividend and a positive divisor `fmod` lies between `0`
and the divisor. -/
theorem fmod_nonneg_lt (v g : ℚ) (hv : 0 ≤ v) (hg : 0 < g) :
    0 ≤ fmod v g ∧ fmod v g < g := by
  have hq : 0 ≤ v / g := div_nonneg hv (le_of_lt hg)
  have h1 : (⌊v / g⌋ : ℚ) ≤ v / g := Int.floor_le _
  have h2 : v / g < (⌊v / g⌋ : ℚ) + 1 := Int.lt_floor_add_one _
  rw [le_div_iff₀ hg] at h1
  rw [div_lt_iff₀ hg] at h2
  unfold fmod truncToInt
  rw [if_pos hq]
  constructor <;> linarith

/-- C18, amended. Grid snap on non-negative coordinates, in any rounded
arithmetic: for `x ≥ 0` and `y ≥ 0` the remainders `xRem = fmod(x, gridSize)`
and `yRem = fmod(y, gridSize)` lie in `[0, gridSize)`; when each of them is
below `tolerance` or above `gridSize - tolerance`, `snapToGrid` returns the
point whose coordinates are `v + (gridSize - rem)` where
`rem > gridSize - tolerance` and `v - rem` elsewhere; otherwise it returns
`(x, y)` unchanged. -/
theorem snapToGrid_window_of_nonneg (rd : ℚ → ℚ) (x y : ℚ)
    (hg : 0 < Fp.gridSize rd) (hx : 0 ≤ x) (hy : 0 ≤ y) :
    (0 ≤ fmod x (Fp.gridSize rd) ∧ fmod x (Fp.gridSize rd) < Fp.gridSize rd) ∧
    (0 ≤ fmod y (Fp.gridSize rd) ∧ fmod y (Fp.gridSize rd) < Fp.gridSize rd) ∧
    ((fmod x (Fp.gridSize rd) < Fp.tolerance rd ∨
          fmod x (Fp.gridSize rd) > rd (Fp.gridSize rd - Fp.tolerance rd)) ∧
        (fmod y (Fp.gridSize rd) < Fp.tolerance rd ∨
          fmod y (Fp.gridSize rd) > rd (Fp.gridSize rd - Fp.tolerance rd)) →
      Fp.snapToGrid rd x y =
        (if fmod x (Fp.gridSize rd) > rd (Fp.gridSize rd - Fp.tolerance rd)
          then rd (x + rd (Fp.gridSize rd - fmod x (Fp.gridSize rd)))
          else rd (x - fmod x (Fp.gridSize rd)),
         if fmod y (Fp.gridSize rd) > rd (Fp.gridSize rd - Fp.tolerance rd)
          then rd (y + rd (Fp.gridSize rd - fmod y (Fp.gridSize rd)))
          else rd (y - fmod y (Fp.gridSize rd)))) ∧
    (¬ ((fmod x (Fp.gridSize rd) < Fp.tolerance rd ∨
          fmod x (Fp.gridSize rd) > rd (Fp.gridSize rd - Fp.tolerance rd)) ∧
        (fmod y (Fp.gridSize rd) < Fp.tolerance rd ∨
          fmod y (Fp.gridSize rd) > rd (Fp.gridSize rd - Fp.tolerance rd))) →
      Fp.snapToGrid rd x y = (x, y)) := by
  refine ⟨fmod_nonneg_lt x _ hx hg, fmod_nonneg_lt y _ hy hg, fun h => ?_, fun h => ?_⟩
  · obtain ⟨wx, wy⟩ := h
    simp only [Fp.snapToGrid, Fp.snapAxis]
    by_cases cx : fmod x (Fp.gridSize rd) > rd (Fp.gridSize rd - Fp.tolerance rd) <;>
      by_cases cy : fmod y (Fp.gridSize rd) > rd (Fp.gridSize rd - Fp.tolerance rd) <;>
      simp [cx, cy, wx.resolve_right, wy.resolve_right]
  · simp only [Fp.snapToGrid, Fp.snapAxis]
    by_cases cx : fmod x (Fp.gridSize rd) > rd (Fp.gridSize rd - Fp.tolerance rd) <;>
      by_cases cy : fmod y (Fp.gridSize rd) > rd (Fp.gridSize rd - Fp.tolerance rd) <;>
      by_cases dx : fmod x (Fp.gridSize rd) < Fp.tolerance rd <;>
      by_cases dy : fmod y (Fp.gridSize rd) < Fp.tolerance rd <;>
      simp [cx, cy, dx, dy] at h ⊢

/-- Witness for C18 amended, in double arithmetic: `snapToGrid(14.18, 0.1)`
returns `(14.17, 0)`. -/
theorem snapToGrid_window_of_nonneg_witness :
    Fp.snapToGrid binary64 (binary64 14.18) (binary64 0.1) =
        (if fmod (binary64 14.18) (Fp.gridSize binary64)
              > binary64 (Fp.gridSize binary64 - Fp.tolerance binary64)
          then binary64 (binary64 14.18
            + binary64 (Fp.gridSize binary64 - fmod (binary64 14.18) (Fp.gridSize binary64)))
          else binary64 (binary64 14.18 - fmod (binary64 14.18) (Fp.gridSize binary64)),
         if fmod (binary64 0.1) (Fp.gridSize binary64)
              > binary64 (Fp.gridSize binary64 - Fp.tolerance binary64)
          then binary64 (binary64 0.1
            + binary64 (Fp.gridSize binary64 - fmod (binary64 0.1) (Fp.gridSize binary64)))
          else binary64 (binary64 0.1 - fmod (binary64 0.1) (Fp.gridSize binary64))) ∧
      Fp.snapToGrid binary64 (binary64 14.18) (binary64 0.1) = (binary64 14.17, 0) :=
  ⟨(snapToGrid_window_of_nonneg binary64 (binary64 14.18) (binary64 0.1)
      (by decide!) (by decide!) (by decide!)).2.2.1 (by decide!),
    by decide!⟩

/-! ### Angle snap in double arithmetic -/

/-- The centres of the bins of the angle snap, as doubles. -/
theorem bin_centres_bounds :
    (0.785 < binary64 (M_PI / binary64 4) ∧ binary64 (M_PI / binary64 4) < 0.786) ∧
    (2.356 < binary64 (binary64 (binary64 3 * M_PI) / binary64 4) ∧
      binary64 (binary64 (binary64 3 * M_PI) / binary64 4) < 2.357) ∧
    (1.570 < binary64 (M_PI / binary64 2) ∧ binary64 (M_PI / binary64 2) < 1.571) ∧
    (3.141 < M_PI ∧ M_PI < 3.142) ∧
    Fp.epsilon binary64 < 0.11 := by
  decide!

/-- The angle-snap chain in double arithmetic when the test of the bin around
`0` passes. -/
theorem angleSnapLast64_zero (m : Libm ℚ) (f : Point ℚ) (x y : ℚ)
    (h : |Fp.snapAngle binary64 m f x y| < Fp.epsilon binary64) :
    Fp.angleSnapLast binary64 m f x y =
      ⟨binary64 (Fp.snapDist binary64 m f x y + f.x), f.y⟩ := by
  simp only [Fp.angleSnapLast]
  rw [if_pos h]

/-- The angle-snap chain in double arithmetic when the test of the bin around
`M_PI / 4` passes. -/
theorem angleSnapLast64_pi_div_four (m : Libm ℚ) (hpi : m.pi = M_PI) (f : Point ℚ) (x y : ℚ)
    (h : |binary64 (Fp.snapAngle binary64 m f x y - binary64 (m.pi / binary64 4))| < Fp.epsilon binary64) :
    Fp.angleSnapLast binary64 m f x y =
      ⟨binary64 (binary64 (Fp.snapDist binary64 m f x y / m.sqrt (binary64 2)) + f.x),
        binary64 (binary64 (Fp.snapDist binary64 m f x y / m.sqrt (binary64 2)) + f.y)⟩ := by
  simp only [Fp.angleSnapLast]
  rw [hpi] at h ⊢
  generalize Fp.snapAngle binary64 m f x y = a at h ⊢
  generalize Fp.snapDist binary64 m f x y = d
  obtain ⟨hc4, hc34, hc2, hp, he⟩ := bin_centres_bounds
  have hk := abs_lt_of_abs_binary64_lt_epsilon _ h
  rw [abs_lt] at hk
  split_ifs with c1
  · exfalso; rw [abs_lt] at c1; linarith [c1.1, c1.2, hk.1, hk.2]
  · rfl

/-- The angle-snap chain in double arithmetic when the test of the bin around
`3 * M_PI / 4` passes. -/
theorem angleSnapLast64_three_pi_div_four (m : Libm ℚ) (hpi : m.pi = M_PI) (f : Point ℚ) (x y : ℚ)
    (h : |binary64 (Fp.snapAngle binary64 m f x y - binary64 (binary64 (binary64 3 * m.pi) / binary64 4))| < Fp.epsilon binary64) :
    Fp.angleSnapLast binary64 m f x y =
      ⟨binary64 (binary64 (-Fp.snapDist binary64 m f x y / m.sqrt (binary64 2)) + f.x),
        binary64 (binary64 (Fp.snapDist binary64 m f x y / m.sqrt (binary64 2)) + f.y)⟩ := by
  simp only [Fp.angleSnapLast]
  rw [hpi] at h ⊢
  generalize Fp.snapAngle binary64 m f x y = a at h ⊢
  generalize Fp.snapDist binary64 m f x y = d
  obtain ⟨hc4, hc34, hc2, hp, he⟩ := bin_centres_bounds
  have hk := abs_lt_of_abs_binary64_lt_epsilon _ h
  rw [abs_lt] at hk
  split_ifs with c1 c2
  · exfalso; rw [abs_lt] at c1; linarith [c1.1, c1.2, hk.1, hk.2]
  · exfalso
    have hj := abs_lt_of_abs_binary64_lt_epsilon _ c2
    rw [abs_lt] at hj
    linarith [hj.1, hj.2, hk.1, hk.2]
  · rfl

/-- The angle-snap chain in double arithmetic when the test of the bin around
`-M_PI / 4` passes. -/
theorem angleSnapLast64_neg_pi_div_four (m : Libm ℚ) (hpi : m.pi = M_PI) (f : Point ℚ) (x y : ℚ)
    (h : |binary64 (Fp.snapAngle binary64 m f x y + binary64 (m.pi / binary64 4))| < Fp.epsilon binary64) :
    Fp.angleSnapLast binary64 m f x y =
      ⟨binary64 (binary64 (Fp.snapDist binary64 m f x y / m.sqrt (binary64 2)) + f.x),
        binary64 (binary64 (-Fp.snapDist binary64 m f x y / m.sqrt (binary64 2)) + f.y)⟩ := by
  simp only [Fp.angleSnapLast]
  rw [hpi] at h ⊢
  generalize Fp.snapAngle binary64 m f x y = a at h ⊢
  generalize Fp.snapDist binary64 m f x y = d
  obtain ⟨hc4, hc34, hc2, hp, he⟩ := bin_centres_bounds
  have hk := abs_lt_of_abs_binary64_lt_epsilon _ h
  rw [abs_lt] at hk
  split_ifs with c1 c2 c3
  · exfalso; rw [abs_lt] at c1; linarith [c1.1, c1.2, hk.1, hk.2]
  · exfalso
    have hj := abs_lt_of_abs_binary64_lt_epsilon _ c2
    rw [abs_lt] at hj
    linarith [hj.1, hj.2, hk.1, hk.2]
  · exfalso
    have hj := abs_lt_of_abs_binary64_lt_epsilon _ c3
    rw [abs_lt] at hj
    linarith [hj.1, hj.2, hk.1, hk.2]
  · rfl

/-- The angle-snap chain in double arithmetic when the test of the bin around
`-3 * M_PI / 4` passes. -/
theorem angleSnapLast64_neg_three_pi_div_four (m : Libm ℚ) (hpi : m.pi = M_PI) (f : Point ℚ) (x y : ℚ)
    (h : |binary64 (Fp.snapAngle binary64 m f x y + binary64 (binary64 (binary64 3 * m.pi) / binary64 4))| < Fp.epsilon binary64) :
    Fp.angleSnapLast binary64 m f x y =
      ⟨binary64 (binary64 (-Fp.snapDist binary64 m f x y / m.sqrt (binary64 2)) + f.x),
        binary64 (binary64 (-Fp.snapDist binary64 m f x y / m.sqrt (binary64 2)) + f.y)⟩ := by
  simp only [Fp.angleSnapLast]
  rw [hpi] at h ⊢
  generalize Fp.snapAngle binary64 m f x y = a at h ⊢
  generalize Fp.snapDist binary64 m f x y = d
  obtain ⟨hc4, hc34, hc2, hp, he⟩ := bin_centres_bounds
  have hk := abs_lt_of_abs_binary64_lt_epsilon _ h
  rw [abs_lt] at hk
  split_ifs with c1 c2 c3 c4
  · exfalso; rw [abs_lt] at c1; linarith [c1.1, c1.2, hk.1, hk.2]
  · exfalso
    have hj := abs_lt_of_abs_binary64_lt_epsilon _ c2
    rw [abs_lt] at hj
    linarith [hj.1, hj.2, hk.1, hk.2]
  · exfalso
    have hj := abs_lt_of_abs_binary64_lt_epsilon _ c3
    rw [abs_lt] at hj
    linarith [hj.1, hj.2, hk.1, hk.2]
  · exfalso
    have hj := abs_lt_of_abs_binary64_lt_epsilon _ c4
    rw [abs_lt] at hj
    linarith [hj.1, hj.2, hk.1, hk.2]
  · rfl

/-- The angle-snap chain in double arithmetic when the test of the bin around
`M_PI` and `-M_PI` passes. -/
theorem angleSnapLast64_pi (m : Libm ℚ) (hpi : m.pi = M_PI) (f : Point ℚ) (x y : ℚ)
    (h : |binary64 (|Fp.snapAngle binary64 m f x y| - m.pi)| < Fp.epsilon binary64) :
    Fp.angleSnapLast binary64 m f x y =
      ⟨binary64 (-Fp.snapDist binary64 m f x y + f.x), f.y⟩ := by
  simp only [Fp.angleSnapLast]
  rw [hpi] at h ⊢
  generalize Fp.snapAngle binary64 m f x y = a at h ⊢
  generalize Fp.snapDist binary64 m f x y = d
  obtain ⟨hc4, hc34, hc2, hp, he⟩ := bin_centres_bounds
  have hk := abs_lt_of_abs_binary64_lt_epsilon _ h
  rw [abs_lt] at hk
  split_ifs with c1 c2 c3 c4 c5
  · exfalso; linarith [hk.1, hk.2]
  · exfalso
    have hj := abs_lt_of_abs_binary64_lt_epsilon _ c2
    rw [abs_lt] at hj
    rcases abs_cases a with ⟨e, _⟩ | ⟨e, _⟩ <;> rw [e] at hk <;> linarith [hj.1, hj.2, hk.1, hk.2]
  · exfalso
    have hj := abs_lt_of_abs_binary64_lt_epsilon _ c3
    rw [abs_lt] at hj
    rcases abs_cases a with ⟨e, _⟩ | ⟨e, _⟩ <;> rw [e] at hk <;> linarith [hj.1, hj.2, hk.1, hk.2]
  · exfalso
    have hj := abs_lt_of_abs_binary64_lt_epsilon _ c4
    rw [abs_lt] at hj
    rcases abs_cases a with ⟨e, _⟩ | ⟨e, _⟩ <;> rw [e] at hk <;> linarith [hj.1, hj.2, hk.1, hk.2]
  · exfalso
    have hj := abs_lt_of_abs_binary64_lt_epsilon _ c5
    rw [abs_lt] at hj
    rcases abs_cases a with ⟨e, _⟩ | ⟨e, _⟩ <;> rw [e] at hk <;> linarith [hj.1, hj.2, hk.1, hk.2]
  · rfl

/-- The angle-snap chain in double arithmetic when the test of the bin around
`M_PI / 2` passes. -/
theorem angleSnapLast64_pi_div_two (m : Libm ℚ) (hpi : m.pi = M_PI) (f : Point ℚ) (x y : ℚ)
    (h : |binary64 (Fp.snapAngle binary64 m f x y - binary64 (m.pi / binary64 2))| < Fp.epsilon binary64) :
    Fp.angleSnapLast binary64 m f x y =
      ⟨f.x, binary64 (Fp.snapDist binary64 m f x y + f.y)⟩ := by
  simp only [Fp.angleSnapLast]
  rw [hpi] at h ⊢
  generalize Fp.snapAngle binary64 m f x y = a at h ⊢
  generalize Fp.snapDist binary64 m f x y = d
  obtain ⟨hc4, hc34, hc2, hp, he⟩ := bin_centres_bounds
  have hk := abs_lt_of_abs_binary64_lt_epsilon _ h
  rw [abs_lt] at hk
  split_ifs with c1 c2 c3 c4 c5 c6
  · exfalso; rw [abs_lt] at c1; linarith [c1.1, c1.2, hk.1, hk.2]
  · exfalso
    have hj := abs_lt_of_abs_binary64_lt_epsilon _ c2
    rw [abs_lt] at hj
    linarith [hj.1, hj.2, hk.1, hk.2]
  · exfalso
    have hj := abs_lt_of_abs_binary64_lt_epsilon _ c3
    rw [abs_lt] at hj
    linarith [hj.1, hj.2, hk.1, hk.2]
  · exfalso
    have hj := abs_lt_of_abs_binary64_lt_epsilon _ c4
    rw [abs_lt] at hj
    linarith [hj.1, hj.2, hk.1, hk.2]
  · exfalso
    have hj := abs_lt_of_abs_binary64_lt_epsilon _ c5
    rw [abs_lt] at hj
    linarith [hj.1, hj.2, hk.1, hk.2]
  · exfalso
    have hj := abs_lt_of_abs_binary64_lt_epsilon _ c6
    rw [abs_lt] at hj
    rcases abs_cases a with ⟨e, _⟩ | ⟨e, _⟩ <;> rw [e] at hj <;> linarith [hj.1, hj.2, hk.1, hk.2]
  · rfl

/-- The angle-snap chain in double arithmetic when the test of the bin around
`-M_PI / 2` passes. -/
theorem angleSnapLast64_neg_pi_div_two (m : Libm ℚ) (hpi : m.pi = M_PI) (f : Point ℚ) (x y : ℚ)
    (h : |binary64 (Fp.snapAngle binary64 m f x y + binary64 (m.pi / binary64 2))| < Fp.epsilon binary64) :
    Fp.angleSnapLast binary64 m f x y =
      ⟨f.x, binary64 (-Fp.snapDist binary64 m f x y + f.y)⟩ := by
  simp only [Fp.angleSnapLast]
  rw [hpi] at h ⊢
  generalize Fp.snapAngle binary64 m f x y = a at h ⊢
  generalize Fp.snapDist binary64 m f x y = d
  obtain ⟨hc4, hc34, hc2, hp, he⟩ := bin_centres_bounds
  have hk := abs_lt_of_abs_binary64_lt_epsilon _ h
  rw [abs_lt] at hk
  split_ifs with c1 c2 c3 c4 c5 c6 c7
  · exfalso; rw [abs_lt] at c1; linarith [c1.1, c1.2, hk.1, hk.2]
  · exfalso
    have hj := abs_lt_of_abs_binary64_lt_epsilon _ c2
    rw [abs_lt] at hj
    linarith [hj.1, hj.2, hk.1, hk.2]
  · exfalso
    have hj := abs_lt_of_abs_binary64_lt_epsilon _ c3
    rw [abs_lt] at hj
    linarith [hj.1, hj.2, hk.1, hk.2]
  · exfalso
    have hj := abs_lt_of_abs_binary64_lt_epsilon _ c4
    rw [abs_lt] at hj
    linarith [hj.1, hj.2, hk.1, hk.2]
  · exfalso
    have hj := abs_lt_of_abs_binary64_lt_epsilon _ c5
    rw [abs_lt] at hj
    linarith [hj.1, hj.2, hk.1, hk.2]
  · exfalso
    have hj := abs_lt_of_abs_binary64_lt_epsilon _ c6
    rw [abs_lt] at hj
    rcases abs_cases a with ⟨e, _⟩ | ⟨e, _⟩ <;> rw [e] at hj <;> linarith [hj.1, hj.2, hk.1, hk.2]
  · exfalso
    have hj := abs_lt_of_abs_binary64_lt_epsilon _ c7
    rw [abs_lt] at hj
    linarith [hj.1, hj.2, hk.1, hk.2]
  · rfl

/-- C5, as stated, fails in double arithmetic.  First point `(0, 0)`, pointer
`(3, 3)`: `atan2(3, 3)` is the double nearest `π/4`, that is `M_PI / 4`, within
`epsilon` of `π/4`; the exact ray point `first + dist * (cos (π/4), sin (π/4))`
with `dist = sqrt 18` is `(3, 3)`; the chain computes
`sqrt(18.0) / sqrt(2.0)` and writes `(3 - 2 ^ (-51), 3 - 2 ^ (-51))`, printed
`2.9999999999999996`.  With the computed `dist` in place of `sqrt 18` the ray
point has an irrational coordinate, so no double equals it either. -/
theorem angleSnapLast_off_ray :
    Fp.angleSnapLast binary64 (libm64 (M_PI / 4)) ⟨0, 0⟩ 3 3
        = ⟨3 - pow2 (-51), 3 - pow2 (-51)⟩ ∧
      |((M_PI / 4 : ℚ) : ℝ) - Real.pi / 4| < 0.1 ∧
      (0 : ℝ) + Real.sqrt ((3 - 0) ^ 2 + (3 - 0) ^ 2) * Real.cos (Real.pi / 4) = 3 ∧
      ((3 - pow2 (-51) : ℚ) : ℝ) ≠ 3 ∧
      ((3 - pow2 (-51) : ℚ) : ℝ)
        ≠ 0 + ((Fp.snapDist binary64 (libm64 (M_PI / 4)) ⟨0, 0⟩ 3 3 : ℚ) : ℝ)
            * Real.cos (Real.pi / 4) ∧
      ((sqrt64 18 - pow2 (-51)) ^ 2 < 18 ∧ 18 < (sqrt64 18 + pow2 (-51)) ^ 2) ∧
      ((sqrt64 2 - pow2 (-53)) ^ 2 < 2 ∧ 2 < (sqrt64 2 + pow2 (-53)) ^ 2) := by
  have e : M_PI = 884279719003555 / 281474976710656 := by decide!
  have ev : (3 - pow2 (-51) : ℚ) = 6755399441055743 / 2251799813685248 := by decide!
  have ed : Fp.snapDist binary64 (libm64 (M_PI / 4)) ⟨0, 0⟩ 3 3
      = 4776788754394329 / 1125899906842624 := by decide!
  refine ⟨by decide!, ?_, ?_, ?_, ?_, by decide!, by decide!⟩
  · rw [e, abs_lt]
    have h1 := Real.pi_gt_d6
    have h2 := Real.pi_lt_d6
    push_cast
    constructor <;> linarith
  · rw [Real.cos_pi_div_four]
    have h18 : Real.sqrt ((3 - 0) ^ 2 + (3 - 0) ^ 2) * Real.sqrt 2 = 6 := by
      rw [← Real.sqrt_mul (by norm_num)]
      rw [show ((3 - 0 : ℝ) ^ 2 + (3 - 0) ^ 2) * 2 = 6 ^ 2 by norm_num]
      exact Real.sqrt_sq (by norm_num)
    rw [zero_add, ← mul_div_assoc, h18]
    norm_num
  · rw [ev]; push_cast; norm_num
  · rw [ev, ed, Real.cos_pi_div_four]
    intro h
    have hirr : Irrational (Real.sqrt 2) := irrational_sqrt_two
    have h2 : Real.sqrt 2 = ((6755399441055743 / 2251799813685248 * 2
        / (4776788754394329 / 1125899906842624) : ℚ) : ℝ) := by
      push_cast at h ⊢
      field_simp at h ⊢
      linarith
    exact hirr.ne_rat _ h2

/-- C5, amended. Angle snap in double arithmetic, for any `sqrt` and `atan2`
and `M_PI` the double nearest `π`: whenever the computed `angle` passes the
test of a bin — `|angle| < epsilon`, `|angle ∓ M_PI / 4| < epsilon`,
`|angle ∓ 3 * M_PI / 4| < epsilon`, `||angle| - M_PI| < epsilon`,
`|angle ∓ M_PI / 2| < epsilon`, the differences rounded — the chain writes the
point of that bin, whatever the order of the tests, since no two of them pass
together: `first + (±dist, 0)`, `first + (0, ±dist)` or
`first + (±dist / sqrt(2), ±dist / sqrt(2))`, with `dist` as computed and
every quotient and sum rounded.  On the four axis directions one coordinate of
the written point is the first point's own. -/
theorem angleSnapLast_bins (m : Libm ℚ) (hpi : m.pi = M_PI) (f : Point ℚ) (x y : ℚ) :
    (|Fp.snapAngle binary64 m f x y| < Fp.epsilon binary64 →
      Fp.angleSnapLast binary64 m f x y
        = ⟨binary64 (Fp.snapDist binary64 m f x y + f.x), f.y⟩) ∧
    (|binary64 (Fp.snapAngle binary64 m f x y - binary64 (m.pi / binary64 4))|
        < Fp.epsilon binary64 →
      Fp.angleSnapLast binary64 m f x y
        = ⟨binary64 (binary64 (Fp.snapDist binary64 m f x y / m.sqrt (binary64 2)) + f.x),
           binary64 (binary64 (Fp.snapDist binary64 m f x y / m.sqrt (binary64 2)) + f.y)⟩) ∧
    (|binary64 (Fp.snapAngle binary64 m f x y
          - binary64 (binary64 (binary64 3 * m.pi) / binary64 4))| < Fp.epsilon binary64 →
      Fp.angleSnapLast binary64 m f x y
        = ⟨binary64 (binary64 (-Fp.snapDist binary64 m f x y / m.sqrt (binary64 2)) + f.x),
           binary64 (binary64 (Fp.snapDist binary64 m f x y / m.sqrt (binary64 2)) + f.y)⟩) ∧
    (|binary64 (Fp.snapAngle binary64 m f x y + binary64 (m.pi / binary64 4))|
        < Fp.epsilon binary64 →
      Fp.angleSnapLast binary64 m f x y
        = ⟨binary64 (binary64 (Fp.snapDist binary64 m f x y / m.sqrt (binary64 2)) + f.x),
           binary64 (binary64 (-Fp.snapDist binary64 m f x y / m.sqrt (binary64 2)) + f.y)⟩) ∧
    (|binary64 (Fp.snapAngle binary64 m f x y
          + binary64 (binary64 (binary64 3 * m.pi) / binary64 4))| < Fp.epsilon binary64 →
      Fp.angleSnapLast binary64 m f x y
        = ⟨binary64 (binary64 (-Fp.snapDist binary64 m f x y / m.sqrt (binary64 2)) + f.x),
           binary64 (binary64 (-Fp.snapDist binary64 m f x y / m.sqrt (binary64 2)) + f.y)⟩) ∧
    (|binary64 (|Fp.snapAngle binary64 m f x y| - m.pi)| < Fp.epsilon binary64 →
      Fp.angleSnapLast binary64 m f x y
        = ⟨binary64 (-Fp.snapDist binary64 m f x y + f.x), f.y⟩) ∧
    (|binary64 (Fp.snapAngle binary64 m f x y - binary64 (m.pi / binary64 2))|
        < Fp.epsilon binary64 →
      Fp.angleSnapLast binary64 m f x y
        = ⟨f.x, binary64 (Fp.snapDist binary64 m f x y + f.y)⟩) ∧
    (|binary64 (Fp.snapAngle binary64 m f x y + binary64 (m.pi / binary64 2))|
        < Fp.epsilon binary64 →
      Fp.angleSnapLast binary64 m f x y
        = ⟨f.x, binary64 (-Fp.snapDist binary64 m f x y + f.y)⟩) :=
  ⟨angleSnapLast64_zero m f x y, angleSnapLast64_pi_div_four m hpi f x y,
    angleSnapLast64_three_pi_div_four m hpi f x y, angleSnapLast64_neg_pi_div_four m hpi f x y,
    angleSnapLast64_neg_three_pi_div_four m hpi f x y, angleSnapLast64_pi m hpi f x y,
    angleSnapLast64_pi_div_two m hpi f x y, angleSnapLast64_neg_pi_div_two m hpi f x y⟩

/-- Witness for C5 amended: first point `(14.17, 0)`, pointer `(17.17, 3)`,
`atan2(3, 3.0000000000000018)` returning `0.7853981633974481`: the test of the
bin around `M_PI / 4` passes and the chain writes
`(17.17, 3.000000000000001)`. -/
theorem angleSnapLast_bins_witness :
    |binary64 (Fp.snapAngle binary64 (libm64 (binary64 0.7853981633974481))
          ⟨binary64 14.17, 0⟩ (binary64 17.17) 3
        - binary64 ((libm64 (binary64 0.7853981633974481)).pi / binary64 4))|
        < Fp.epsilon binary64 ∧
      Fp.angleSnapLast binary64 (libm64 (binary64 0.7853981633974481))
          ⟨binary64 14.17, 0⟩ (binary64 17.17) 3
        = ⟨binary64 (binary64 (Fp.snapDist binary64 (libm64 (binary64 0.7853981633974481))
              ⟨binary64 14.17, 0⟩ (binary64 17.17) 3
            / (libm64 (binary64 0.7853981633974481)).sqrt (binary64 2)) + binary64 14.17),
           binary64 (binary64 (Fp.snapDist binary64 (libm64 (binary64 0.7853981633974481))
              ⟨binary64 14.17, 0⟩ (binary64 17.17) 3
            / (libm64 (binary64 0.7853981633974481)).sqrt (binary64 2)) + 0)⟩ ∧
      Fp.angleSnapLast binary64 (libm64 (binary64 0.7853981633974481))
          ⟨binary64 14.17, 0⟩ (binary64 17.17) 3
        = ⟨binary64 17.17, binary64 3.000000000000001⟩ :=
  have ht : |binary64 (Fp.snapAngle binary64 (libm64 (binary64 0.7853981633974481))
          ⟨binary64 14.17, 0⟩ (binary64 17.17) 3
        - binary64 ((libm64 (binary64 0.7853981633974481)).pi / binary64 4))|
        < Fp.epsilon binary64 := by decide!
  ⟨ht, (angleSnapLast_bins (libm64 (binary64 0.7853981633974481)) rfl
      ⟨binary64 14.17, 0⟩ (binary64 17.17) 3).2.1 ht, by decide!⟩

end RulerFacts

section WidgetFacts

variable {α : Type} [LinearOrderedField α]

/-! ### `updateScrollbar` -/

/-- C7. Recentering rule of `updateScrollbar`, with `R = upper - lower`: on an
infinite axis both bounds move down by `0.2 * R` when
`value < lower + 0.1 * R`, otherwise both move up by `0.2 * R` when
`value > upper - 0.1 * R`, otherwise the adjustment is unchanged; on a finite
axis the adjustment is unchanged; and in every case `value`, `pageSize`,
`pageIncrement` and `stepIncrement` are untouched. -/
theorem updateScrollbar_rule (adj : Adjustment α) (value : α) :
    (value < adj.lower + 0.1 * (adj.upper - adj.lower) →
      (updateScrollbar adj value true).lower = adj.lower - 0.2 * (adj.upper - adj.lower) ∧
      (updateScrollbar adj value true).upper = adj.upper - 0.2 * (adj.upper - adj.lower)) ∧
    (¬ value < adj.lower + 0.1 * (adj.upper - adj.lower) →
      value > adj.upper - 0.1 * (adj.upper - adj.lower) →
      (updateScrollbar adj value true).lower = adj.lower + 0.2 * (adj.upper - adj.lower) ∧
      (updateScrollbar adj value true).upper = adj.upper + 0.2 * (adj.upper - adj.lower)) ∧
    (¬ value < adj.lower + 0.1 * (adj.upper - adj.lower) →
      ¬ value > adj.upper - 0.1 * (adj.upper - adj.lower) →
      updateScrollbar adj value true = adj) ∧
    updateScrollbar adj value false = adj ∧
    ∀ infinite : Bool,
      (updateScrollbar adj value infinite).value = adj.value ∧
      (updateScrollbar adj value infinite).pageSize = adj.pageSize ∧
      (updateScrollbar adj value infinite).pageIncrement = adj.pageIncrement ∧
      (updateScrollbar adj value infinite).stepIncrement = adj.stepIncrement := by
  refine ⟨fun c1 => ?_, fun c1 c2 => ?_, fun c1 c2 => ?_, ?_, fun infinite => ?_⟩
  · simp only [updateScrollbar, if_true, if_pos c1, and_self]
  · simp only [updateScrollbar, if_true, if_neg c1, if_pos c2, and_self]
  · simp only [updateScrollbar, if_true, if_neg c1, if_neg c2]
  · simp [updateScrollbar]
  · cases infinite
    · simp [updateScrollbar]
    · simp only [updateScrollbar, if_true]
      split_ifs <;> simp

/-- Witness for C7 (scenario S3): `lower = -900`, `upper = 900`, `value = 850`
is above the upper threshold `720`, and the bounds become `-540` and `1260`. -/
theorem updateScrollbar_rule_witness :
    ¬ (850 : ℚ) < -900 + 0.1 * (900 - -900) ∧ (850 : ℚ) > 900 - 0.1 * (900 - -900) ∧
      (updateScrollbar (⟨-900, 900, 850, 600, 590, 10⟩ : Adjustment ℚ) 850 true).lower
        = -900 + 0.2 * (900 - -900) ∧
      (updateScrollbar (⟨-900, 900, 850, 600, 590, 10⟩ : Adjustment ℚ) 850 true).upper
        = 900 + 0.2 * (900 - -900) ∧
      (-900 : ℚ) + 0.2 * (900 - -900) = -540 ∧ (900 : ℚ) + 0.2 * (900 - -900) = 1260 :=
  have c1 : ¬ (850 : ℚ) < -900 + 0.1 * (900 - -900) := by norm_num
  have c2 : (850 : ℚ) > 900 - 0.1 * (900 - -900) := by norm_num
  have h := (updateScrollbar_rule (⟨-900, 900, 850, 600, 590, 10⟩ : Adjustment ℚ) 850).2.1 c1 c2
  ⟨c1, c2, h.1, h.2, by norm_num, by norm_num⟩

/-! ### `sizeAllocateCallback` -/

/-- C8. Allocation idempotence: running the size-allocate recomputation a
second time with the same allocation, the same layout and a viewport of the
same `rawScale`, on the adjustments the first run produced, returns those
adjustments again. -/
theorem sizeAllocateCallback_idempotent (STEP_INCREMENT : α) (allocation : GdkRectangle)
    (layout : Layout α) (viewport viewport' : Viewport α) (hadjustment vadjustment : Adjustment α)
    (hs : viewport'.rawScale = viewport.rawScale) :
    (sizeAllocateCallback STEP_INCREMENT allocation layout viewport'
        (sizeAllocateCallback STEP_INCREMENT allocation layout viewport
          hadjustment vadjustment).hadjustment
        (sizeAllocateCallback STEP_INCREMENT allocation layout viewport
          hadjustment vadjustment).vadjustment).hadjustment
      = (sizeAllocateCallback STEP_INCREMENT allocation layout viewport
          hadjustment vadjustment).hadjustment ∧
    (sizeAllocateCallback STEP_INCREMENT allocation layout viewport'
        (sizeAllocateCallback STEP_INCREMENT allocation layout viewport
          hadjustment vadjustment).hadjustment
        (sizeAllocateCallback STEP_INCREMENT allocation layout viewport
          hadjustment vadjustment).vadjustment).vadjustment
      = (sizeAllocateCallback STEP_INCREMENT allocation layout viewport
          hadjustment vadjustment).vadjustment := by
  simp only [sizeAllocateCallback, hs]
  constructor
  · cases layout.infiniteHorizontally <;> simp
  · cases layout.infiniteVertically <;> simp

/-- C9. Finite-axis bounds: after the size-allocate recomputation the
adjustment of a finite axis has `lower = 0` and `upper` equal to the document
extent times `rawScale`, whatever the allocation and the adjustment before. -/
theorem sizeAllocateCallback_finite_bounds (STEP_INCREMENT : α) (allocation : GdkRectangle)
    (layout : Layout α) (viewport : Viewport α) (hadjustment vadjustment : Adjustment α) :
    (layout.infiniteHorizontally = false →
      (sizeAllocateCallback STEP_INCREMENT allocation layout viewport
          hadjustment vadjustment).hadjustment.lower = 0 ∧
      (sizeAllocateCallback STEP_INCREMENT allocation layout viewport
          hadjustment vadjustment).hadjustment.upper
        = layout.documentWidth * viewport.rawScale) ∧
    (layout.infiniteVertically = false →
      (sizeAllocateCallback STEP_INCREMENT allocation layout viewport
          hadjustment vadjustment).vadjustment.lower = 0 ∧
      (sizeAllocateCallback STEP_INCREMENT allocation layout viewport
          hadjustment vadjustment).vadjustment.upper
        = layout.documentHeight * viewport.rawScale) := by
  constructor <;> intro hf <;> simp [sizeAllocateCallback, hf]

/-- C10. Infinite-axis bounds on allocation: after the size-allocate
recomputation the adjustment of an infinite axis has `lower = -1.5 * dim` and
`upper = 1.5 * dim`, with `dim` the allocated width (horizontal) or height
(vertical), whatever the document extent, `rawScale` and the adjustment
before. -/
theorem sizeAllocateCallback_infinite_bounds (STEP_INCREMENT : α) (allocation : GdkRectangle)
    (layout : Layout α) (viewport : Viewport α) (hadjustment vadjustment : Adjustment α) :
    (layout.infiniteHorizontally = true →
      (sizeAllocateCallback STEP_INCREMENT allocation layout viewport
          hadjustment vadjustment).hadjustment.lower = -1.5 * (allocation.width : α) ∧
      (sizeAllocateCallback STEP_INCREMENT allocation layout viewport
          hadjustment vadjustment).hadjustment.upper = 1.5 * (allocation.width : α)) ∧
    (layout.infiniteVertically = true →
      (sizeAllocateCallback STEP_INCREMENT allocation layout viewport
          hadjustment vadjustment).vadjustment.lower = -1.5 * (allocation.height : α) ∧
      (sizeAllocateCallback STEP_INCREMENT allocation layout viewport
          hadjustment vadjustment).vadjustment.upper = 1.5 * (allocation.height : α)) := by
  constructor <;> intro hf <;> simp [sizeAllocateCallback, hf]

/-- Witness for C8 (scenario S1, finite horizontally, infinite vertically):
allocation `800 × 600`, document `500 × 700`, `rawScale = 1`, adjustments as
initialised around `0`. -/
theorem sizeAllocateCallback_idempotent_witness :
    (sizeAllocateCallback (10 : ℚ) ⟨800, 600⟩ ⟨500, 700, false, true⟩ ⟨0, 0, 800, 600, 1⟩
        (sizeAllocateCallback (10 : ℚ) ⟨800, 600⟩ ⟨500, 700, false, true⟩ ⟨0, 0, 640, 480, 1⟩
          ⟨-150, 150, 0, 100, 10, 10⟩ ⟨-150, 150, 0, 100, 10, 10⟩).hadjustment
        (sizeAllocateCallback (10 : ℚ) ⟨800, 600⟩ ⟨500, 700, false, true⟩ ⟨0, 0, 640, 480, 1⟩
          ⟨-150, 150, 0, 100, 10, 10⟩ ⟨-150, 150, 0, 100, 10, 10⟩).vadjustment).hadjustment
      = (sizeAllocateCallback (10 : ℚ) ⟨800, 600⟩ ⟨500, 700, false, true⟩ ⟨0, 0, 640, 480, 1⟩
          ⟨-150, 150, 0, 100, 10, 10⟩ ⟨-150, 150, 0, 100, 10, 10⟩).hadjustment ∧
    (sizeAllocateCallback (10 : ℚ) ⟨800, 600⟩ ⟨500, 700, false, true⟩ ⟨0, 0, 800, 600, 1⟩
        (sizeAllocateCallback (10 : ℚ) ⟨800, 600⟩ ⟨500, 700, false, true⟩ ⟨0, 0, 640, 480, 1⟩
          ⟨-150, 150, 0, 100, 10, 10⟩ ⟨-150, 150, 0, 100, 10, 10⟩).hadjustment
        (sizeAllocateCallback (10 : ℚ) ⟨800, 600⟩ ⟨500, 700, false, true⟩ ⟨0, 0, 640, 480, 1⟩
          ⟨-150, 150, 0, 100, 10, 10⟩ ⟨-150, 150, 0, 100, 10, 10⟩).vadjustment).vadjustment
      = (sizeAllocateCallback (10 : ℚ) ⟨800, 600⟩ ⟨500, 700, false, true⟩ ⟨0, 0, 640, 480, 1⟩
          ⟨-150, 150, 0, 100, 10, 10⟩ ⟨-150, 150, 0, 100, 10, 10⟩).vadjustment :=
  sizeAllocateCallback_idempotent (10 : ℚ) ⟨800, 600⟩ ⟨500, 700, false, true⟩
    ⟨0, 0, 640, 480, 1⟩ ⟨0, 0, 800, 600, 1⟩
    ⟨-150, 150, 0, 100, 10, 10⟩ ⟨-150, 150, 0, 100, 10, 10⟩ rfl

/-- Witness for C9 (scenario S1): `documentWidth = 500`, `rawScale = 1`,
`W = 800` gives `lower = 0`, `upper = 500`. -/
theorem sizeAllocateCallback_finite_bounds_witness :
    (sizeAllocateCallback (10 : ℚ) ⟨800, 600⟩ ⟨500, 700, false, true⟩ ⟨0, 0, 640, 480, 1⟩
        ⟨-150, 150, 0, 100, 10, 10⟩ ⟨-150, 150, 0, 100, 10, 10⟩).hadjustment.lower = 0 ∧
      (sizeAllocateCallback (10 : ℚ) ⟨800, 600⟩ ⟨500, 700, false, true⟩ ⟨0, 0, 640, 480, 1⟩
        ⟨-150, 150, 0, 100, 10, 10⟩ ⟨-150, 150, 0, 100, 10, 10⟩).hadjustment.upper
        = 500 * 1 ∧
      (500 : ℚ) * 1 = 500 :=
  have h := (sizeAllocateCallback_finite_bounds (10 : ℚ) ⟨800, 600⟩ ⟨500, 700, false, true⟩
    ⟨0, 0, 640, 480, 1⟩ ⟨-150, 150, 0, 100, 10, 10⟩ ⟨-150, 150, 0, 100, 10, 10⟩).1 rfl
  ⟨h.1, h.2, by norm_num⟩

/-- Witness for C10 (scenario S2): vertically infinite layout, `H = 600` gives
`lower = -900`, `upper = 900`. -/
theorem sizeAllocateCallback_infinite_bounds_witness :
    (sizeAllocateCallback (10 : ℚ) ⟨800, 600⟩ ⟨500, 700, false, true⟩ ⟨0, 0, 640, 480, 1⟩
        ⟨-150, 150, 0, 100, 10, 10⟩ ⟨-150, 150, 0, 100, 10, 10⟩).vadjustment.lower
        = -1.5 * ((600 : ℤ) : ℚ) ∧
      (sizeAllocateCallback (10 : ℚ) ⟨800, 600⟩ ⟨500, 700, false, true⟩ ⟨0, 0, 640, 480, 1⟩
        ⟨-150, 150, 0, 100, 10, 10⟩ ⟨-150, 150, 0, 100, 10, 10⟩).vadjustment.upper
        = 1.5 * ((600 : ℤ) : ℚ) ∧
      -1.5 * ((600 : ℤ) : ℚ) = -900 ∧ 1.5 * ((600 : ℤ) : ℚ) = 900 :=
  have h := (sizeAllocateCallback_infinite_bounds (10 : ℚ) ⟨800, 600⟩
    ⟨500, 700, false, true⟩ ⟨0, 0, 640, 480, 1⟩
    ⟨-150, 150, 0, 100, 10, 10⟩ ⟨-150, 150, 0, 100, 10, 10⟩).2 rfl
  ⟨h.1, h.2, by norm_num, by norm_num⟩

/-! ### `sizeAllocateCallback`: what is written and what is kept -/

/-- C12, as stated, fails: with the allocation `0 × 0` the recomputation still
overwrites the horizontal adjustment `(-150, 150, 0, 100, 10, 10)` with
`(0, 500, 0, 0, -10, 10)`. -/
theorem sizeAllocateCallback_degenerate_not_noop :
    (⟨0, 0⟩ : GdkRectangle).width ≤ 0 ∧
      (sizeAllocateCallback (10 : ℚ) ⟨0, 0⟩ ⟨500, 700, false, false⟩ ⟨0, 0, 800, 600, 1⟩
          ⟨-150, 150, 0, 100, 10, 10⟩ ⟨-150, 150, 0, 100, 10, 10⟩).hadjustment
        = ⟨0, 500, 0, 0, -10, 10⟩ ∧
      (sizeAllocateCallback (10 : ℚ) ⟨0, 0⟩ ⟨500, 700, false, false⟩ ⟨0, 0, 800, 600, 1⟩
          ⟨-150, 150, 0, 100, 10, 10⟩ ⟨-150, 150, 0, 100, 10, 10⟩).hadjustment
        ≠ ⟨-150, 150, 0, 100, 10, 10⟩ := by
  have e : (sizeAllocateCallback (10 : ℚ) ⟨0, 0⟩ ⟨500, 700, false, false⟩ ⟨0, 0, 800, 600, 1⟩
      ⟨-150, 150, 0, 100, 10, 10⟩ ⟨-150, 150, 0, 100, 10, 10⟩).hadjustment
      = ⟨0, 500, 0, 0, -10, 10⟩ := by decide!
  refine ⟨by decide, e, ?_⟩
  rw [e]
  decide!

/-- C12, amended. Degenerate inputs are treated like any other: when the
size-allocate recomputation is run with a non-positive allocation dimension or
a non-positive `rawScale`, it leaves `value` and `stepIncrement` of both
adjustments as they were and overwrites `lower`, `upper`, `pageSize` and
`pageIncrement` by the usual rule. -/
theorem sizeAllocateCallback_degenerate (STEP_INCREMENT : α) (allocation : GdkRectangle)
    (layout : Layout α) (viewport : Viewport α) (hadjustment vadjustment : Adjustment α) :
    allocation.width ≤ 0 ∨ allocation.height ≤ 0 ∨ viewport.rawScale ≤ 0 →
    (sizeAllocateCallback STEP_INCREMENT allocation layout viewport
        hadjustment vadjustment).hadjustment
      = { lower := if layout.infiniteHorizontally then -1.5 * (allocation.width : α) else 0
          upper := if layout.infiniteHorizontally then 1.5 * (allocation.width : α)
            else layout.documentWidth * viewport.rawScale
          value := hadjustment.value
          pageSize := (allocation.width : α)
          pageIncrement := (allocation.width : α) - STEP_INCREMENT
          stepIncrement := hadjustment.stepIncrement } ∧
    (sizeAllocateCallback STEP_INCREMENT allocation layout viewport
        hadjustment vadjustment).vadjustment
      = { lower := if layout.infiniteVertically then -1.5 * (allocation.height : α) else 0
          upper := if layout.infiniteVertically then 1.5 * (allocation.height : α)
            else layout.documentHeight * viewport.rawScale
          value := vadjustment.value
          pageSize := (allocation.height : α)
          pageIncrement := (allocation.height : α) - STEP_INCREMENT
          stepIncrement := vadjustment.stepIncrement } := by
  intro _
  simp only [sizeAllocateCallback]
  constructor
  · cases layout.infiniteHorizontally <;> simp
  · cases layout.infiniteVertically <;> simp

/-- Witness for C12 amended: the allocation `0 × 0` on a finite layout. -/
theorem sizeAllocateCallback_degenerate_witness :
    (sizeAllocateCallback (10 : ℚ) ⟨0, 0⟩ ⟨500, 700, false, false⟩ ⟨0, 0, 800, 600, 1⟩
        ⟨-150, 150, 0, 100, 10, 10⟩ ⟨-150, 150, 0, 100, 10, 10⟩).hadjustment
      = { lower := if false then -1.5 * ((0 : ℤ) : ℚ) else 0
          upper := if false then 1.5 * ((0 : ℤ) : ℚ) else 500 * 1
          value := 0
          pageSize := ((0 : ℤ) : ℚ)
          pageIncrement := ((0 : ℤ) : ℚ) - 10
          stepIncrement := 10 } :=
  (sizeAllocateCallback_degenerate (10 : ℚ) ⟨0, 0⟩ ⟨500, 700, false, false⟩
    ⟨0, 0, 800, 600, 1⟩ ⟨-150, 150, 0, 100, 10, 10⟩ ⟨-150, 150, 0, 100, 10, 10⟩
    (Or.inl (le_refl 0))).1

/-- C13, as stated, fails (scenario S1): the horizontal adjustment
`(-150, 150, 0, 100, 10, 10)` satisfies `lower ≤ value ≤ upper - pageSize`, and
after the recomputation with `documentWidth * rawScale = 500 < 800 = W` it is
`(0, 500, 0, 800, 790, 10)`, where `upper - pageSize = -300 < value`. -/
theorem sizeAllocateCallback_invariant_fails :
    ((-150 : ℚ) ≤ 0 ∧ (0 : ℚ) ≤ 150 - 100) ∧
      (sizeAllocateCallback (10 : ℚ) ⟨800, 600⟩ ⟨500, 700, false, false⟩ ⟨0, 0, 800, 600, 1⟩
          ⟨-150, 150, 0, 100, 10, 10⟩ ⟨-150, 150, 0, 100, 10, 10⟩).hadjustment
        = ⟨0, 500, 0, 800, 790, 10⟩ ∧
      ¬ ((⟨0, 500, 0, 800, 790, 10⟩ : Adjustment ℚ).lower
            ≤ (⟨0, 500, 0, 800, 790, 10⟩ : Adjustment ℚ).value ∧
          (⟨0, 500, 0, 800, 790, 10⟩ : Adjustment ℚ).value
            ≤ (⟨0, 500, 0, 800, 790, 10⟩ : Adjustment ℚ).upper
              - (⟨0, 500, 0, 800, 790, 10⟩ : Adjustment ℚ).pageSize) := by
  refine ⟨by norm_num, by decide!, ?_⟩
  norm_num

/-- C13, amended. Finite-axis adjustment invariant: after the size-allocate
recomputation the adjustment of a finite axis satisfies
`lower ≤ value ≤ upper - pageSize` exactly when its value, which the
recomputation does not change, satisfies
`0 ≤ value ≤ documentExtent * rawScale - dim`; in particular not when the
scaled document is smaller than the allocation. -/
theorem sizeAllocateCallback_invariant_iff (STEP_INCREMENT : α) (allocation : GdkRectangle)
    (layout : Layout α) (viewport : Viewport α) (hadjustment vadjustment : Adjustment α) :
    (layout.infiniteHorizontally = false →
      (((sizeAllocateCallback STEP_INCREMENT allocation layout viewport
            hadjustment vadjustment).hadjustment.lower
          ≤ (sizeAllocateCallback STEP_INCREMENT allocation layout viewport
            hadjustment vadjustment).hadjustment.value ∧
        (sizeAllocateCallback STEP_INCREMENT allocation layout viewport
            hadjustment vadjustment).hadjustment.value
          ≤ (sizeAllocateCallback STEP_INCREMENT allocation layout viewport
              hadjustment vadjustment).hadjustment.upper
            - (sizeAllocateCallback STEP_INCREMENT allocation layout viewport
              hadjustment vadjustment).hadjustment.pageSize)
        ↔ (0 ≤ hadjustment.value ∧
            hadjustment.value
              ≤ layout.documentWidth * viewport.rawScale - (allocation.width : α))) ∧
      (layout.documentWidth * viewport.rawScale < (allocation.width : α) →
        ¬ ((sizeAllocateCallback STEP_INCREMENT allocation layout viewport
              hadjustment vadjustment).hadjustment.lower
            ≤ (sizeAllocateCallback STEP_INCREMENT allocation layout viewport
              hadjustment vadjustment).hadjustment.value ∧
          (sizeAllocateCallback STEP_INCREMENT allocation layout viewport
              hadjustment vadjustment).hadjustment.value
            ≤ (sizeAllocateCallback STEP_INCREMENT allocation layout viewport
                hadjustment vadjustment).hadjustment.upper
              - (sizeAllocateCallback STEP_INCREMENT allocation layout viewport
                hadjustment vadjustment).hadjustment.pageSize))) ∧
    (layout.infiniteVertically = false →
      (((sizeAllocateCallback STEP_INCREMENT allocation layout viewport
            hadjustment vadjustment).vadjustment.lower
          ≤ (sizeAllocateCallback STEP_INCREMENT allocation layout viewport
            hadjustment vadjustment).vadjustment.value ∧
        (sizeAllocateCallback STEP_INCREMENT allocation layout viewport
            hadjustment vadjustment).vadjustment.value
          ≤ (sizeAllocateCallback STEP_INCREMENT allocation layout viewport
              hadjustment vadjustment).vadjustment.upper
            - (sizeAllocateCallback STEP_INCREMENT allocation layout viewport
              hadjustment vadjustment).vadjustment.pageSize)
        ↔ (0 ≤ vadjustment.value ∧
            vadjustment.value
              ≤ layout.documentHeight * viewport.rawScale - (allocation.height : α))) ∧
      (layout.documentHeight * viewport.rawScale < (allocation.height : α) →
        ¬ ((sizeAllocateCallback STEP_INCREMENT allocation layout viewport
              hadjustment vadjustment).vadjustment.lower
            ≤ (sizeAllocateCallback STEP_INCREMENT allocation layout viewport
              hadjustment vadjustment).vadjustment.value ∧
          (sizeAllocateCallback STEP_INCREMENT allocation layout viewport
              hadjustment vadjustment).vadjustment.value
            ≤ (sizeAllocateCallback STEP_INCREMENT allocation layout viewport
                hadjustment vadjustment).vadjustment.upper
              - (sizeAllocateCallback STEP_INCREMENT allocation layout viewport
                hadjustment vadjustment).vadjustment.pageSize))) := by
  constructor
  · intro hf
    simp only [sizeAllocateCallback, hf]
    refine ⟨by simp, fun hlt hinv => ?_⟩
    simp at hinv
    linarith [hinv.1, hinv.2]
  · intro hf
    simp only [sizeAllocateCallback, hf]
    refine ⟨by simp, fun hlt hinv => ?_⟩
    simp at hinv
    linarith [hinv.1, hinv.2]

/-- Witness for C13 amended: `documentWidth = 2000`, `rawScale = 1`, `W = 800`,
`value = 0`: the invariant holds after the recomputation, since
`0 ≤ 0 ≤ 2000 - 800`. -/
theorem sizeAllocateCallback_invariant_iff_witness :
    (sizeAllocateCallback (10 : ℚ) ⟨800, 600⟩ ⟨2000, 700, false, false⟩ ⟨0, 0, 800, 600, 1⟩
          ⟨-150, 150, 0, 100, 10, 10⟩ ⟨-150, 150, 0, 100, 10, 10⟩).hadjustment.lower
        ≤ (sizeAllocateCallback (10 : ℚ) ⟨800, 600⟩ ⟨2000, 700, false, false⟩
          ⟨0, 0, 800, 600, 1⟩
          ⟨-150, 150, 0, 100, 10, 10⟩ ⟨-150, 150, 0, 100, 10, 10⟩).hadjustment.value ∧
      (sizeAllocateCallback (10 : ℚ) ⟨800, 600⟩ ⟨2000, 700, false, false⟩ ⟨0, 0, 800, 600, 1⟩
          ⟨-150, 150, 0, 100, 10, 10⟩ ⟨-150, 150, 0, 100, 10, 10⟩).hadjustment.value
        ≤ (sizeAllocateCallback (10 : ℚ) ⟨800, 600⟩ ⟨2000, 700, false, false⟩
            ⟨0, 0, 800, 600, 1⟩
            ⟨-150, 150, 0, 100, 10, 10⟩ ⟨-150, 150, 0, 100, 10, 10⟩).hadjustment.upper
          - (sizeAllocateCallback (10 : ℚ) ⟨800, 600⟩ ⟨2000, 700, false, false⟩
            ⟨0, 0, 800, 600, 1⟩
            ⟨-150, 150, 0, 100, 10, 10⟩ ⟨-150, 150, 0, 100, 10, 10⟩).hadjustment.pageSize :=
  ((sizeAllocateCallback_invariant_iff (10 : ℚ) ⟨800, 600⟩ ⟨2000, 700, false, false⟩
    ⟨0, 0, 800, 600, 1⟩ ⟨-150, 150, 0, 100, 10, 10⟩ ⟨-150, 150, 0, 100, 10, 10⟩).1 rfl).1.mpr
    ⟨le_refl 0, by norm_num⟩

/-- C15. Page parameters and frame of the size-allocate recomputation: the
vertical adjustment gets `pageSize = H` and `pageIncrement = H - STEP_INCREMENT`,
the horizontal one `pageSize = W` and `pageIncrement = W - STEP_INCREMENT`, and
`value` and `stepIncrement` of both adjustments are unchanged. -/
theorem sizeAllocateCallback_page (STEP_INCREMENT : α) (allocation : GdkRectangle)
    (layout : Layout α) (viewport : Viewport α) (hadjustment vadjustment : Adjustment α) :
    (sizeAllocateCallback STEP_INCREMENT allocation layout viewport
        hadjustment vadjustment).vadjustment.pageSize = (allocation.height : α) ∧
    (sizeAllocateCallback STEP_INCREMENT allocation layout viewport
        hadjustment vadjustment).vadjustment.pageIncrement
      = (allocation.height : α) - STEP_INCREMENT ∧
    (sizeAllocateCallback STEP_INCREMENT allocation layout viewport
        hadjustment vadjustment).hadjustment.pageSize = (allocation.width : α) ∧
    (sizeAllocateCallback STEP_INCREMENT allocation layout viewport
        hadjustment vadjustment).hadjustment.pageIncrement
      = (allocation.width : α) - STEP_INCREMENT ∧
    (sizeAllocateCallback STEP_INCREMENT allocation layout viewport
        hadjustment vadjustment).vadjustment.value = vadjustment.value ∧
    (sizeAllocateCallback STEP_INCREMENT allocation layout viewport
        hadjustment vadjustment).vadjustment.stepIncrement = vadjustment.stepIncrement ∧
    (sizeAllocateCallback STEP_INCREMENT allocation layout viewport
        hadjustment vadjustment).hadjustment.value = hadjustment.value ∧
    (sizeAllocateCallback STEP_INCREMENT allocation layout viewport
        hadjustment vadjustment).hadjustment.stepIncrement = hadjustment.stepIncrement := by
  simp only [sizeAllocateCallback]
  refine ⟨trivial, trivial, trivial, trivial, ?_, ?_, ?_, ?_⟩
  · cases layout.infiniteVertically <;> rfl
  · cases layout.infiniteVertically <;> rfl
  · cases layout.infiniteHorizontally <;> rfl
  · cases layout.infiniteHorizontally <;> rfl

/-! ### Rounded and exact arithmetic -/

/-- With `rd = id` the rounded `updateScrollbar` is the exact one. -/
theorem Fp_updateScrollbar_id (adj : Adjustment ℚ) (value : ℚ) (infinite : Bool) :
    Fp.updateScrollbar id adj value infinite = updateScrollbar adj value infinite := rfl

/-- With `rd = id` the rounded `sizeAllocateCallback` is the exact one. -/
theorem Fp_sizeAllocateCallback_id (STEP_INCREMENT : ℚ) (allocation : GdkRectangle)
    (layout : Layout ℚ) (viewport : Viewport ℚ) (hadjustment vadjustment : Adjustment ℚ) :
    Fp.sizeAllocateCallback id STEP_INCREMENT allocation layout viewport hadjustment vadjustment
      = sizeAllocateCallback STEP_INCREMENT allocation layout viewport hadjustment vadjustment :=
  rfl

/-- With `rd = id` the rounded `drawCallback` is the exact one. -/
theorem Fp_drawCallback_id (x1 y1 x2 y2 : ℚ) (allocWidth allocHeight : Int)
    (layout : Layout ℚ) (viewport : Viewport ℚ) :
    Fp.drawCallback id x1 y1 x2 y2 allocWidth allocHeight layout viewport
      = drawCallback x1 y1 x2 y2 allocWidth allocHeight layout viewport := rfl

/-! ### The band after recentering -/

/-- C11. Centering transform on draw.  The `cairo_translate` calls of the draw
computation are exactly: `((W - documentWidth) / 2, 0)` if the horizontal axis
is finite and `documentWidth * rawScale < W`, then
`(0, (H - documentHeight) / 2)` if the vertical axis is finite and
`documentHeight * rawScale < H`, and no other.  Under the horizontal condition
the clip width is `min (cx2 - cx1) (documentWidth * rawScale)`, otherwise it is
`cx2 - cx1`; the clip height is symmetric; the clip origin is always
`(viewport.x + cx1, viewport.y + cy1)`. -/
theorem drawCallback_transform (x1 y1 x2 y2 : α) (allocWidth allocHeight : Int)
    (layout : Layout α) (viewport : Viewport α) :
    ((layout.infiniteHorizontally = false ∧
          layout.documentWidth * viewport.rawScale < (allocWidth : α)) →
      (layout.infiniteVertically = false ∧
          layout.documentHeight * viewport.rawScale < (allocHeight : α)) →
      (drawCallback x1 y1 x2 y2 allocWidth allocHeight layout viewport).translations
        = [(((allocWidth : α) - layout.documentWidth) / 2, 0),
           (0, ((allocHeight : α) - layout.documentHeight) / 2)]) ∧
    ((layout.infiniteHorizontally = false ∧
          layout.documentWidth * viewport.rawScale < (allocWidth : α)) →
      ¬ (layout.infiniteVertically = false ∧
          layout.documentHeight * viewport.rawScale < (allocHeight : α)) →
      (drawCallback x1 y1 x2 y2 allocWidth allocHeight layout viewport).translations
        = [(((allocWidth : α) - layout.documentWidth) / 2, 0)]) ∧
    (¬ (layout.infiniteHorizontally = false ∧
          layout.documentWidth * viewport.rawScale < (allocWidth : α)) →
      (layout.infiniteVertically = false ∧
          layout.documentHeight * viewport.rawScale < (allocHeight : α)) →
      (drawCallback x1 y1 x2 y2 allocWidth allocHeight layout viewport).translations
        = [(0, ((allocHeight : α) - layout.documentHeight) / 2)]) ∧
    (¬ (layout.infiniteHorizontally = false ∧
          layout.documentWidth * viewport.rawScale < (allocWidth : α)) →
      ¬ (layout.infiniteVertically = false ∧
          layout.documentHeight * viewport.rawScale < (allocHeight : α)) →
      (drawCallback x1 y1 x2 y2 allocWidth allocHeight layout viewport).translations = []) ∧
    ((layout.infiniteHorizontally = false ∧
          layout.documentWidth * viewport.rawScale < (allocWidth : α)) →
      (drawCallback x1 y1 x2 y2 allocWidth allocHeight layout viewport).clippingRect.width
        = min (x2 - x1) (layout.documentWidth * viewport.rawScale)) ∧
    (¬ (layout.infiniteHorizontally = false ∧
          layout.documentWidth * viewport.rawScale < (allocWidth : α)) →
      (drawCallback x1 y1 x2 y2 allocWidth allocHeight layout viewport).clippingRect.width
        = x2 - x1) ∧
    ((layout.infiniteVertically = false ∧
          layout.documentHeight * viewport.rawScale < (allocHeight : α)) →
      (drawCallback x1 y1 x2 y2 allocWidth allocHeight layout viewport).clippingRect.height
        = min (y2 - y1) (layout.documentHeight * viewport.rawScale)) ∧
    (¬ (layout.infiniteVertically = false ∧
          layout.documentHeight * viewport.rawScale < (allocHeight : α)) →
      (drawCallback x1 y1 x2 y2 allocWidth allocHeight layout viewport).clippingRect.height
        = y2 - y1) ∧
    (drawCallback x1 y1 x2 y2 allocWidth allocHeight layout viewport).clippingRect.x
      = viewport.x + x1 ∧
    (drawCallback x1 y1 x2 y2 allocWidth allocHeight layout viewport).clippingRect.y
      = viewport.y + y1 := by
  refine ⟨fun h v => ?_, fun h v => ?_, fun h v => ?_, fun h v => ?_, fun h => ?_, fun h => ?_,
    fun v => ?_, fun v => ?_, ?_, ?_⟩
  · simp only [drawCallback, if_pos h, if_pos v, List.nil_append, List.singleton_append]
  · simp only [drawCallback, if_pos h, if_neg v, List.nil_append]
  · simp only [drawCallback, if_neg h, if_pos v, List.nil_append]
  · simp only [drawCallback, if_neg h, if_neg v]
  · simp only [drawCallback, if_pos h]
    split_ifs <;> rfl
  · simp only [drawCallback, if_neg h]
    split_ifs <;> rfl
  · simp only [drawCallback, if_pos v]
    split_ifs <;> rfl
  · simp only [drawCallback, if_neg v]
    split_ifs <;> rfl
  · simp only [drawCallback]
    split_ifs <;> rfl
  · simp only [drawCallback]
    split_ifs <;> rfl

/-- Witness for C11 (scenario S1): `documentWidth = 500`, `rawScale = 1`,
`W = 800`, vertically infinite: the one translation is `(150, 0)`. -/
theorem drawCallback_transform_witness :
    (drawCallback (0 : ℚ) 0 800 600 800 600 ⟨500, 700, false, true⟩
          ⟨0, 0, 800, 600, 1⟩).translations
        = [((((800 : ℤ) : ℚ) - 500) / 2, 0)] ∧
      (((800 : ℤ) : ℚ) - 500) / 2 = 150 ∧
      (drawCallback (0 : ℚ) 0 800 600 800 600 ⟨500, 700, false, true⟩
          ⟨0, 0, 800, 600, 1⟩).clippingRect.width = min (800 - 0) (500 * 1) :=
  have hc : (false = false) ∧ (500 : ℚ) * 1 < ((800 : ℤ) : ℚ) := ⟨rfl, by norm_num⟩
  have vc : ¬ ((true = false) ∧ (700 : ℚ) * 1 < ((600 : ℤ) : ℚ)) := fun h => by
    exact absurd h.1 (by decide)
  have h := drawCallback_transform (0 : ℚ) 0 800 600 800 600 ⟨500, 700, false, true⟩
    ⟨0, 0, 800, 600, 1⟩
  ⟨h.2.1 hc vc, by norm_num, h.2.2.2.2.1 hc⟩

/-- C20, as stated, fails in double arithmetic: with `documentWidth = 100`,
`rawScale = 1 + 2 ^ (-52)` (the double after `1`) and `W = 1920` the draw
computation translates by `(W - documentWidth) / 2 = 910`, and
`(W - documentWidth * rawScale) / 2` is `910` as well, although
`rawScale ≠ 1` and `documentWidth ≠ 0`. -/
theorem drawCallback_border_eq_unscaled :
    (1 : ℚ) ≤ 1 + pow2 (-52) ∧ (1 : ℚ) + pow2 (-52) ≠ 1 ∧ (100 : ℚ) ≠ 0 ∧
      binary64 (1 + pow2 (-52)) = 1 + pow2 (-52) ∧
      binary64 (100 * (1 + pow2 (-52))) < binary64 ((1920 : ℤ) : ℚ) ∧
      (Fp.drawCallback binary64 0 0 1920 1080 1920 1080 ⟨100, 100, false, true⟩
          ⟨0, 0, 1920, 1080, 1 + pow2 (-52)⟩).translations = [(910, 0)] ∧
      binary64 (binary64 (binary64 ((1920 : ℤ) : ℚ) - binary64 (100 * (1 + pow2 (-52))))
        / binary64 2) = 910 := by
  decide!

/-- C20, amended. Centering offset at zoom `≥ 1`: on a finite horizontal axis
with `documentWidth ≥ 0` and `rawScale ≥ 1`, whenever
`documentWidth * rawScale < W`, the draw computation translates first by
`((W - documentWidth) / 2, 0)` and by nothing else with a horizontal
component; this offset is strictly positive and at least
`(W - documentWidth * rawScale) / 2`, and equal to it when `rawScale = 1` or
`documentWidth = 0`.  The vertical axis is symmetric, its translation being
the last one. -/
theorem drawCallback_border_bounds (x1 y1 x2 y2 : α) (allocWidth allocHeight : Int)
    (layout : Layout α) (viewport : Viewport α) (hs : 1 ≤ viewport.rawScale) :
    (layout.infiniteHorizontally = false → 0 ≤ layout.documentWidth →
        layout.documentWidth * viewport.rawScale < (allocWidth : α) →
      (∃ rest,
        (drawCallback x1 y1 x2 y2 allocWidth allocHeight layout viewport).translations
          = (((allocWidth : α) - layout.documentWidth) / 2, 0) :: rest ∧
        ∀ t ∈ rest, t.1 = 0) ∧
      0 < ((allocWidth : α) - layout.documentWidth) / 2 ∧
      ((allocWidth : α) - layout.documentWidth * viewport.rawScale) / 2
        ≤ ((allocWidth : α) - layout.documentWidth) / 2 ∧
      (viewport.rawScale = 1 ∨ layout.documentWidth = 0 →
        ((allocWidth : α) - layout.documentWidth) / 2
          = ((allocWidth : α) - layout.documentWidth * viewport.rawScale) / 2)) ∧
    (layout.infiniteVertically = false → 0 ≤ layout.documentHeight →
        layout.documentHeight * viewport.rawScale < (allocHeight : α) →
      (∃ before,
        (drawCallback x1 y1 x2 y2 allocWidth allocHeight layout viewport).translations
          = before ++ [(0, ((allocHeight : α) - layout.documentHeight) / 2)] ∧
        ∀ t ∈ before, t.2 = 0) ∧
      0 < ((allocHeight : α) - layout.documentHeight) / 2 ∧
      ((allocHeight : α) - layout.documentHeight * viewport.rawScale) / 2
        ≤ ((allocHeight : α) - layout.documentHeight) / 2 ∧
      (viewport.rawScale = 1 ∨ layout.documentHeight = 0 →
        ((allocHeight : α) - layout.documentHeight) / 2
          = ((allocHeight : α) - layout.documentHeight * viewport.rawScale) / 2)) := by
  have key : ∀ d w : α, 0 ≤ d → d * viewport.rawScale < w →
      0 < (w - d) / 2 ∧ (w - d * viewport.rawScale) / 2 ≤ (w - d) / 2 ∧
      (viewport.rawScale = 1 ∨ d = 0 → (w - d) / 2 = (w - d * viewport.rawScale) / 2) := by
    intro d w hd hc
    have hle : d ≤ d * viewport.rawScale := le_mul_of_one_le_right hd hs
    refine ⟨by linarith, by linarith, fun h => ?_⟩
    rcases h with h | h
    · rw [h, mul_one]
    · rw [h, zero_mul]
  constructor
  · intro hf hd hc
    refine ⟨?_, key _ _ hd hc⟩
    simp only [drawCallback, hf, hc, and_self, if_true, List.nil_append]
    split_ifs
    · exact ⟨[(0, ((allocHeight : α) - layout.documentHeight) / 2)], rfl, by simp⟩
    · exact ⟨[], rfl, by simp⟩
  · intro hf hd hc
    refine ⟨?_, key _ _ hd hc⟩
    simp only [drawCallback, hf, hc, and_self, if_true]
    split_ifs
    · exact ⟨[(((allocWidth : α) - layout.documentWidth) / 2, 0)], rfl, by simp⟩
    · exact ⟨[], rfl, by simp⟩

/-- Witness for C20 amended: `documentWidth = 500`, `rawScale = 3 / 2`,
`W = 800`: the offset is `150`, above `(800 - 750) / 2 = 25`. -/
theorem drawCallback_border_bounds_witness :
    (∃ rest,
        (drawCallback (0 : ℚ) 0 800 600 800 600 ⟨500, 700, false, true⟩
            ⟨0, 0, 800, 600, 3 / 2⟩).translations
          = ((((800 : ℤ) : ℚ) - 500) / 2, 0) :: rest ∧
        ∀ t ∈ rest, t.1 = 0) ∧
      (0 : ℚ) < (((800 : ℤ) : ℚ) - 500) / 2 ∧
      (((800 : ℤ) : ℚ) - 500 * (3 / 2)) / 2 ≤ (((800 : ℤ) : ℚ) - 500) / 2 :=
  have h := (drawCallback_border_bounds (0 : ℚ) 0 800 600 800 600 ⟨500, 700, false, true⟩
    ⟨0, 0, 800, 600, 3 / 2⟩ (by norm_num)).1 rfl (by norm_num) (by norm_num)
  ⟨h.1, h.2.1, h.2.2.1⟩

/-! ### Runs of `updateScrollbar` -/

/-- C14, as stated, fails in double arithmetic: after the size-allocate
recomputation with `H = 601` (`lower = -901.5`, `upper = 901.5`) and the two
calls `updateScrollbar(850)`, `updateScrollbar(1300)`, the bounds are
`-180.29999999999995` and `1622.6999999999998`; their difference is not
`3 * 601 = 1803`, and neither is its rounding, `1802.9999999999998`. -/
theorem updateScrollbarRun_span_drifts :
    (Fp.sizeAllocateCallback binary64 10 ⟨800, 601⟩ ⟨500, 700, false, true⟩
        ⟨0, 0, 800, 601, 1⟩ ⟨-150, 150, 0, 100, 10, 10⟩
        ⟨-150, 150, 0, 100, 10, 10⟩).vadjustment.lower = -901.5 ∧
      (Fp.sizeAllocateCallback binary64 10 ⟨800, 601⟩ ⟨500, 700, false, true⟩
        ⟨0, 0, 800, 601, 1⟩ ⟨-150, 150, 0, 100, 10, 10⟩
        ⟨-150, 150, 0, 100, 10, 10⟩).vadjustment.upper = 901.5 ∧
      (Fp.updateScrollbarRun binary64
        (Fp.sizeAllocateCallback binary64 10 ⟨800, 601⟩ ⟨500, 700, false, true⟩
          ⟨0, 0, 800, 601, 1⟩ ⟨-150, 150, 0, 100, 10, 10⟩
          ⟨-150, 150, 0, 100, 10, 10⟩).vadjustment [850, 1300]).lower
        = binary64 (-180.29999999999995) ∧
      (Fp.updateScrollbarRun binary64
        (Fp.sizeAllocateCallback binary64 10 ⟨800, 601⟩ ⟨500, 700, false, true⟩
          ⟨0, 0, 800, 601, 1⟩ ⟨-150, 150, 0, 100, 10, 10⟩
          ⟨-150, 150, 0, 100, 10, 10⟩).vadjustment [850, 1300]).upper
        = binary64 1622.6999999999998 ∧
      binary64 1622.6999999999998 - binary64 (-180.29999999999995) ≠ 3 * 601 ∧
      binary64 (binary64 1622.6999999999998 - binary64 (-180.29999999999995))
        = binary64 1802.9999999999998 ∧
      binary64 1802.9999999999998 ≠ 3 * 601 := by
  decide!

/-- In double arithmetic `1.5 * n` and `-1.5 * n` are computed exactly for an
`int` `n`. -/
theorem binary64_bounds_of_int (n : ℤ) (hn : |n| ≤ 2 ^ 31) :
    binary64 (binary64 1.5 * binary64 (n : ℚ)) = 1.5 * (n : ℚ) ∧
    binary64 (binary64 (-1.5) * binary64 (n : ℚ)) = -1.5 * (n : ℚ) := by
  have e1 : binary64 1.5 = 1.5 := by decide!
  have e2 : binary64 (-1.5) = -1.5 := by decide!
  have hn' : |n| < 2 ^ 53 := lt_of_le_of_lt hn (by norm_num)
  have h3 : |3 * n| < 2 ^ 53 := by
    rw [abs_mul]
    have : |(3 : ℤ)| = 3 := by norm_num
    rw [this]; linarith
  have h3' : |(-3) * n| < 2 ^ 53 := by
    rw [abs_mul]
    have : |(-3 : ℤ)| = 3 := by norm_num
    rw [this]; linarith
  have p := binary64_intCast_div_two (3 * n) h3
  have q := binary64_intCast_div_two ((-3) * n) h3'
  rw [e1, e2, binary64_intCast n hn']
  constructor
  · rw [show (1.5 : ℚ) * (n : ℚ) = (((3 * n : ℤ) : ℚ)) / 2 by push_cast; ring]
    exact p
  · rw [show (-1.5 : ℚ) * (n : ℚ) = ((((-3) * n : ℤ) : ℚ)) / 2 by push_cast; ring]
    exact q

/-- C14, amended. Infinite-axis span.  In double arithmetic, right after a
size-allocate recomputation with an `int` dimension `dim` on an infinite axis,
`upper - lower = 3 * dim`.  Every later `updateScrollbar` call, in any rounded
arithmetic and whatever the adjustment `a` has become, leaves it as it is or
adds one and the same computed shift, `-0.2 * R` or `+0.2 * R` with
`R = upper - lower` read before the call, to both bounds, the two sums being
rounded separately. -/
theorem updateScrollbar_shift (rd : ℚ → ℚ) (STEP_INCREMENT : ℚ)
    (allocation : GdkRectangle) (layout : Layout ℚ) (viewport : Viewport ℚ)
    (hadjustment vadjustment a : Adjustment ℚ) (value : ℚ) :
    (layout.infiniteVertically = true → |allocation.height| ≤ 2 ^ 31 →
      (Fp.sizeAllocateCallback binary64 STEP_INCREMENT allocation layout viewport
          hadjustment vadjustment).vadjustment.upper
        - (Fp.sizeAllocateCallback binary64 STEP_INCREMENT allocation layout viewport
          hadjustment vadjustment).vadjustment.lower
        = 3 * (allocation.height : ℚ)) ∧
    (layout.infiniteHorizontally = true → |allocation.width| ≤ 2 ^ 31 →
      (Fp.sizeAllocateCallback binary64 STEP_INCREMENT allocation layout viewport
          hadjustment vadjustment).hadjustment.upper
        - (Fp.sizeAllocateCallback binary64 STEP_INCREMENT allocation layout viewport
          hadjustment vadjustment).hadjustment.lower
        = 3 * (allocation.width : ℚ)) ∧
    (Fp.updateScrollbar rd a value true = a ∨
      ((Fp.updateScrollbar rd a value true).lower
          = rd (a.lower - rd (rd 0.2 * rd (a.upper - a.lower))) ∧
        (Fp.updateScrollbar rd a value true).upper
          = rd (a.upper - rd (rd 0.2 * rd (a.upper - a.lower)))) ∨
      ((Fp.updateScrollbar rd a value true).lower
          = rd (a.lower + rd (rd 0.2 * rd (a.upper - a.lower))) ∧
        (Fp.updateScrollbar rd a value true).upper
          = rd (a.upper + rd (rd 0.2 * rd (a.upper - a.lower))))) := by
  refine ⟨fun hf hn => ?_, fun hf hn => ?_, ?_⟩
  · obtain ⟨p, q⟩ := binary64_bounds_of_int allocation.height hn
    simp only [Fp.sizeAllocateCallback, hf, if_true, p, q]
    ring
  · obtain ⟨p, q⟩ := binary64_bounds_of_int allocation.width hn
    simp only [Fp.sizeAllocateCallback, hf, if_true, p, q]
    ring
  · simp only [Fp.updateScrollbar, if_true]
    split_ifs
    · exact Or.inr (Or.inl ⟨rfl, rfl⟩)
    · exact Or.inr (Or.inr ⟨rfl, rfl⟩)
    · exact Or.inl rfl

/-- Witness for C14 amended, in double arithmetic: vertically infinite layout,
`H = 601`: the span right after the recomputation is `1803`. -/
theorem updateScrollbar_shift_witness :
    (Fp.sizeAllocateCallback binary64 10 ⟨800, 601⟩ ⟨500, 700, false, true⟩
          ⟨0, 0, 800, 601, 1⟩ ⟨-150, 150, 0, 100, 10, 10⟩
          ⟨-150, 150, 0, 100, 10, 10⟩).vadjustment.upper
        - (Fp.sizeAllocateCallback binary64 10 ⟨800, 601⟩ ⟨500, 700, false, true⟩
          ⟨0, 0, 800, 601, 1⟩ ⟨-150, 150, 0, 100, 10, 10⟩
          ⟨-150, 150, 0, 100, 10, 10⟩).vadjustment.lower
        = 3 * ((601 : ℤ) : ℚ) ∧
      3 * ((601 : ℤ) : ℚ) = 1803 :=
  ⟨(updateScrollbar_shift binary64 10 ⟨800, 601⟩ ⟨500, 700, false, true⟩
      ⟨0, 0, 800, 601, 1⟩ ⟨-150, 150, 0, 100, 10, 10⟩ ⟨-150, 150, 0, 100, 10, 10⟩
      ⟨-901.5, 901.5, 0, 601, 591, 10⟩ 850).1 rfl (by norm_num),
    by norm_num⟩

end WidgetFacts

end Xournalpp
